import Mathlib

/-!
# Verification of the gpu-bd identity-resolution and ingestion engine

A shallow embedding of the deterministic core of the repository:

* `src/silver/gpu/normalize.py` — lexical normalizer and canonical model key;
* `src/silver/gpu/ingest_variants_from_hypotheses.py` — chip-catalog index,
  match resolver, dual-source arbitration, variant identity and ingestion;
* `src/silver/gpu/ingest_market_observations.py` — observation reconciliation.

Python values coming from parsed JSON are modelled by `JVal`; Python floats by
`PyFloat` (exact rationals plus the three non-finite values); machine-level
hashing (`hashlib.sha256(...).hexdigest()`) is implemented bit-for-bit over
byte lists with `Nat` words reduced mod 2^32.  String handling models the
ASCII behaviour of Python's `str.lower`/`str.upper`/`str.strip` and of the
compiled regular expressions, which the ingestion code only applies to
ASCII-cleaned text.  All definitions are executable and kernel-reducible.
-/

set_option maxRecDepth 40000

namespace GpuBd

/-! ## Python-style character and string helpers -/

/-- Whitespace characters recognised by Python's `str.strip` and `\s`
(ASCII range). -/
def py_is_space (c : Char) : Bool :=
  c == ' ' || c == '\t' || c == '\n' || c == '\r' || c == '\x0b' || c == '\x0c'

def py_to_lower (c : Char) : Char := c.toLower

def py_to_upper (c : Char) : Char := c.toUpper

def drop_space_left (l : List Char) : List Char := l.dropWhile py_is_space

/-- `str.strip()` on a character list: drop leading and trailing whitespace. -/
def py_strip_chars (l : List Char) : List Char :=
  ((drop_space_left l).reverse.dropWhile py_is_space).reverse

def py_strip (s : String) : String := String.mk (py_strip_chars s.data)

def py_lower (s : String) : String := String.mk (s.data.map py_to_lower)

def py_upper (s : String) : String := String.mk (s.data.map py_to_upper)

/-- Word characters of the regex class `\w` / the boundary assertion `\b`
(ASCII range): letters, digits and underscore. -/
def is_word_char (c : Char) : Bool := c.isAlpha || c.isDigit || c == '_'

def is_digit_char (c : Char) : Bool := c.isDigit

def is_lower_alpha (c : Char) : Bool := 'a' ≤ c && c ≤ 'z'

/-- `l.startsWith pre` on character lists. -/
def starts_with_chars : List Char → List Char → Bool
  | [], _ => true
  | _ :: _, [] => false
  | p :: ps, c :: cs => p == c && starts_with_chars ps cs

/-- Drop a literal token from the front, or fail. -/
def drop_tok : List Char → List Char → Option (List Char)
  | [], l => some l
  | _ :: _, [] => none
  | p :: ps, c :: cs => if p == c then drop_tok ps cs else none

/-- Naive substring test, modelling Python's `needle in haystack`. -/
def contains_sub (needle : List Char) : List Char → Bool
  | [] => starts_with_chars needle []
  | l@(_ :: rest) => starts_with_chars needle l || contains_sub needle rest

/-- Collapse every maximal run of whitespace to a single space
(the regex substitution `\s+` → `" "`). -/
def collapse_ws_go : Nat → List Char → List Char
  | 0, _ => []
  | _, [] => []
  | n + 1, c :: rest =>
    if py_is_space c then
      ' ' :: collapse_ws_go n (rest.dropWhile py_is_space)
    else
      c :: collapse_ws_go n rest

def collapse_ws (l : List Char) : List Char := collapse_ws_go l.length l

/-- Split on whitespace runs, dropping empty pieces (Python's `str.split()`). -/
def split_ws_go : Nat → List Char → List (List Char)
  | 0, _ => []
  | _, [] => []
  | n + 1, l@(c :: rest) =>
    if py_is_space c then split_ws_go n rest
    else
      let word := l.takeWhile (fun d => !py_is_space d)
      word :: split_ws_go n (l.dropWhile (fun d => !py_is_space d))

def split_ws (l : List Char) : List (List Char) := split_ws_go l.length l

/-- The piece of `s` before the first comma (Python's `s.split(",", 1)[0]`). -/
def before_first_comma (l : List Char) : List Char :=
  l.takeWhile (fun c => !(c == ','))

/-! ## SHA-256 (`hashlib.sha256(...).hexdigest()`), over byte lists -/

def w32 : Nat := 4294967296

def add32 (a b : Nat) : Nat := (a + b) % w32

def rotr32 (n x : Nat) : Nat := ((x >>> n) ||| ((x <<< (32 - n)) % w32)) % w32

def shr32 (n x : Nat) : Nat := x >>> n

def not32 (a : Nat) : Nat := Nat.xor a (w32 - 1)

def sha_ch (x y z : Nat) : Nat := Nat.xor (Nat.land x y) (Nat.land (not32 x) z)

def sha_maj (x y z : Nat) : Nat :=
  Nat.xor (Nat.xor (Nat.land x y) (Nat.land x z)) (Nat.land y z)

def big_sigma0 (x : Nat) : Nat :=
  Nat.xor (Nat.xor (rotr32 2 x) (rotr32 13 x)) (rotr32 22 x)

def big_sigma1 (x : Nat) : Nat :=
  Nat.xor (Nat.xor (rotr32 6 x) (rotr32 11 x)) (rotr32 25 x)

def small_sigma0 (x : Nat) : Nat :=
  Nat.xor (Nat.xor (rotr32 7 x) (rotr32 18 x)) (shr32 3 x)

def small_sigma1 (x : Nat) : Nat :=
  Nat.xor (Nat.xor (rotr32 17 x) (rotr32 19 x)) (shr32 10 x)

def sha_k : List Nat :=
  [1116352408, 1899447441, 3049323471, 3921009573, 961987163, 1508970993,
   2453635748, 2870763221, 3624381080, 310598401, 607225278, 1426881987,
   1925078388, 2162078206, 2614888103, 3248222580, 3835390401, 4022224774,
   264347078, 604807628, 770255983, 1249150122, 1555081692, 1996064986,
   2554220882, 2821834349, 2952996808, 3210313671, 3336571891, 3584528711,
   113926993, 338241895, 666307205, 773529912, 1294757372, 1396182291,
   1695183700, 1986661051, 2177026350, 2456956037, 2730485921, 2820302411,
   3259730800, 3345764771, 3516065817, 3600352804, 4094571909, 275423344,
   430227734, 506948616, 659060556, 883997877, 958139571, 1322822218,
   1537002063, 1747873779, 1955562222, 2024104815, 2227730452, 2361852424,
   2428436474, 2756734187, 3204031479, 3329325298]

def sha_h0 : List Nat :=
  [1779033703, 3144134277, 1013904242, 2773480762,
   1359893119, 2600822924, 528734635, 1541459225]

def be64 (n : Nat) : List Nat :=
  [(n >>> 56) % 256, (n >>> 48) % 256, (n >>> 40) % 256, (n >>> 32) % 256,
   (n >>> 24) % 256, (n >>> 16) % 256, (n >>> 8) % 256, n % 256]

def sha_pad (msg : List Nat) : List Nat :=
  let len := msg.length
  let zeros := (119 - len % 64) % 64
  msg ++ 0x80 :: List.replicate zeros 0 ++ be64 (8 * len)

def words_of_bytes : List Nat → List Nat
  | b0 :: b1 :: b2 :: b3 :: rest =>
      (((b0 * 256 + b1) * 256 + b2) * 256 + b3) :: words_of_bytes rest
  | _ => []

def chunks64_go : Nat → List Nat → List (List Nat)
  | 0, _ => []
  | _, [] => []
  | n + 1, l@(_ :: _) => l.take 64 :: chunks64_go n (l.drop 64)

def chunks64 (l : List Nat) : List (List Nat) := chunks64_go l.length l

def extend_w (w : List Nat) : Nat → List Nat
  | 0 => w
  | n + 1 =>
      let i := w.length
      let v := add32 (add32 (small_sigma1 (w.getD (i - 2) 0)) (w.getD (i - 7) 0))
                     (add32 (small_sigma0 (w.getD (i - 15) 0)) (w.getD (i - 16) 0))
      extend_w (w ++ [v]) n

def sha_round (st : List Nat) (kw : Nat × Nat) : List Nat :=
  match st with
  | [a, b, c, d, e, f, g, h] =>
      let t1 := add32 (add32 (add32 h (big_sigma1 e)) (add32 (sha_ch e f g) kw.1)) kw.2
      let t2 := add32 (big_sigma0 a) (sha_maj a b c)
      [add32 t1 t2, a, b, c, add32 d t1, e, f, g]
  | other => other

def sha_block (h : List Nat) (block : List Nat) : List Nat :=
  let w := extend_w (words_of_bytes block) 48
  let st := (sha_k.zip w).foldl sha_round h
  (h.zip st).map (fun p => add32 p.1 p.2)

def sha256_words (msg : List Nat) : List Nat :=
  (chunks64 (sha_pad msg)).foldl sha_block sha_h0

def hex_digit (n : Nat) : Char :=
  "0123456789abcdef".data.getD n '0'

def hex8 (n : Nat) : List Char :=
  [hex_digit ((n >>> 28) % 16), hex_digit ((n >>> 24) % 16), hex_digit ((n >>> 20) % 16),
   hex_digit ((n >>> 16) % 16), hex_digit ((n >>> 12) % 16), hex_digit ((n >>> 8) % 16),
   hex_digit ((n >>> 4) % 16), hex_digit (n % 16)]

/-- UTF-8 encoding of one code point (Python's `str.encode("utf-8")`). -/
def utf8_encode (c : Char) : List Nat :=
  let n := c.toNat
  if n < 0x80 then [n]
  else if n < 0x800 then [0xc0 + n / 64, 0x80 + n % 64]
  else if n < 0x10000 then [0xe0 + n / 4096, 0x80 + (n / 64) % 64, 0x80 + n % 64]
  else [0xf0 + n / 262144, 0x80 + (n / 4096) % 64, 0x80 + (n / 64) % 64, 0x80 + n % 64]

def utf8_bytes (s : String) : List Nat := (s.data.map utf8_encode).flatten

/-- `hashlib.sha256(s.encode("utf-8")).hexdigest()`. -/
def sha256_hexdigest (s : String) : String :=
  String.mk ((sha256_words (utf8_bytes s)).map hex8).flatten

/-! ## Python floats and JSON values -/

/-- A Python float: an exact finite value, or one of the three non-finite
values.  Finite values are kept as exact rationals; binary64 rounding is not
modelled (none of the verified properties depends on it), but the ordering of
the non-finite values follows IEEE-754: `nan` compares false with
everything. -/
inductive PyFloat where
  | finite (q : ℚ)
  | inf
  | neginf
  | nan
  deriving DecidableEq

/-- `a <= b` on Python floats. -/
def pf_le : PyFloat → PyFloat → Bool
  | .nan, _ => false
  | _, .nan => false
  | .neginf, _ => true
  | _, .neginf => false
  | _, .inf => true
  | .inf, _ => false
  | .finite a, .finite b => a ≤ b

/-- The value is a finite number. -/
def pf_is_finite : PyFloat → Bool
  | .finite _ => true
  | _ => false

/-- A parsed JSON value, as produced by Python's `json.loads`. -/
inductive JVal where
  | null
  | bool (b : Bool)
  | int (n : ℤ)
  | float (x : PyFloat)
  | str (s : String)
  | arr (xs : List JVal)
  | obj (fields : List (String × JVal))

/-- Lookup in a parsed JSON object (`d.get(key)`, `None` when absent).
`json.loads` produces unique keys, so first-match lookup is exact. -/
def obj_get : List (String × JVal) → String → Option JVal
  | [], _ => none
  | (k, v) :: rest, key => if k == key then some v else obj_get rest key

/-- `payload.get(key)` with Python's `None` represented by `JVal.null`. -/
def dict_get (payload : JVal) (key : String) : JVal :=
  match payload with
  | .obj fields => (obj_get fields key).getD .null
  | _ => .null

/-- Python truthiness of a JSON value. -/
def jval_truthy : JVal → Bool
  | .null => false
  | .bool b => b
  | .int n => !(n == 0)
  | .float x =>
      match x with
      | .finite q => !(q == 0)
      | _ => true
  | .str s => !(s == "")
  | .arr xs => !xs.isEmpty
  | .obj fields => !fields.isEmpty

/-- Python's `a or b`. -/
def py_or (a b : JVal) : JVal := if jval_truthy a then a else b

/-- `payload.get(key) or {}`, then treated as a dict: the field list of the
object, or empty. -/
def get_obj_fields (payload : JVal) (key : String) : List (String × JVal) :=
  match py_or (dict_get payload key) (.obj []) with
  | .obj fields => fields
  | _ => []

/-- Python's `repr` of a float.  Finite integral values print as `n.0` like
Python; other finite values are rendered as an exact `num/den` tag, which is
deterministic but not Python's shortest-decimal form (no verified property
hashes or parses a non-integral float's text). -/
def float_repr : PyFloat → String
  | .inf => "inf"
  | .neginf => "-inf"
  | .nan => "nan"
  | .finite q =>
      if q.den == 1 then toString q.num ++ ".0"
      else toString q.num ++ "/" ++ toString q.den

/-- Python's `repr`, bounded by a structural fuel on nesting depth (CPython
itself fails on JSON nested beyond its recursion limit).  String contents are
quoted without inner-escape handling. -/
def py_repr_fuel : Nat → JVal → String
  | _, .null => "None"
  | _, .bool b => if b then "True" else "False"
  | _, .int n => toString n
  | _, .float x => float_repr x
  | _, .str s => "\x27" ++ s ++ "\x27"
  | 0, .arr _ => "[...]"
  | 0, .obj _ => "\x7b...\x7d"
  | n + 1, .arr xs =>
      "[" ++ String.intercalate ", " (xs.map (py_repr_fuel n)) ++ "]"
  | n + 1, .obj fields =>
      "\x7b" ++
        String.intercalate ", "
          (fields.map (fun kv => "\x27" ++ kv.1 ++ "\x27: " ++ py_repr_fuel n kv.2)) ++
      "\x7d"

/-- Python's `str(value)`. -/
def py_str_of : JVal → String
  | .null => "None"
  | .bool b => if b then "True" else "False"
  | .int n => toString n
  | .float x => float_repr x
  | .str s => s
  | .arr xs => py_repr_fuel 1000 (.arr xs)
  | .obj fields => py_repr_fuel 1000 (.obj fields)

/-- Digits prefix: value, count of digits, rest. -/
def take_digits : List Char → Nat × Nat × List Char
  | [] => (0, 0, [])
  | c :: rest =>
      if c.isDigit then
        let (v, n, r) := take_digits rest
        ((c.toNat - 48) * 10 ^ n + v, n + 1, r)
      else (0, 0, c :: rest)

/-- Python's `int(s)` on an already stripped string (sign and digits; on
failure `None`). -/
def py_parse_int (s : String) : Option ℤ :=
  let l := s.data
  let (sign, rest) : ℤ × List Char :=
    match l with
    | '-' :: r => (-1, r)
    | '+' :: r => (1, r)
    | r => (1, r)
  let (v, n, r) := take_digits rest
  if n == 0 || !r.isEmpty then none else some (sign * Int.ofNat v)

/-- Python's `float(s)`: optional sign, then `inf`/`infinity`/`nan`
(case-insensitive) or a decimal literal with optional fraction and exponent.
Finite results are kept exact (no binary64 rounding or overflow-to-inf). -/
def py_parse_float (s : String) : Option PyFloat :=
  let l := (py_strip_chars s.data).map py_to_lower
  let (sign, rest) : ℚ × List Char :=
    match l with
    | '-' :: r => (-1, r)
    | '+' :: r => (1, r)
    | r => (1, r)
  if rest == "inf".data || rest == "infinity".data then
    some (if sign < 0 then .neginf else .inf)
  else if rest == "nan".data then some .nan
  else
    let (iv, ic, r1) := take_digits rest
    let (fv, fc, r2) : Nat × Nat × List Char :=
      match r1 with
      | '.' :: r => take_digits r
      | r => (0, 0, r)
    if ic + fc == 0 then none
    else
      let mant : ℚ := sign * ((iv : ℚ) + (fv : ℚ) / (10 : ℚ) ^ fc)
      match r2 with
      | [] => some (.finite mant)
      | 'e' :: r3 =>
          let (esign, r4) : Bool × List Char :=
            match r3 with
            | '-' :: r => (false, r)
            | '+' :: r => (true, r)
            | r => (true, r)
          let (ev, ec, r5) := take_digits r4
          if ec == 0 || !r5.isEmpty then none
          else if esign then some (.finite (mant * (10 : ℚ) ^ ev))
          else some (.finite (mant / (10 : ℚ) ^ ev))
      | _ => none

/-- `_coerce_str`: `None` → `None`; otherwise `str(value).strip()`,
with the empty string collapsed to `None`. -/
def coerce_str (value : JVal) : Option String :=
  match value with
  | .null => none
  | v =>
      let text := py_strip (py_str_of v)
      if text == "" then none else some text

/-- Python's bankers rounding `round(q)` for a float with no second
argument. -/
def round_half_even (q : ℚ) : ℤ :=
  let f : ℤ := ⌊q⌋
  let r : ℚ := q - (f : ℚ)
  if r < 1 / 2 then f
  else if r > 1 / 2 then f + 1
  else if f % 2 == 0 then f else f + 1

/-- `_coerce_int`: `None`/`bool` → `None`; ints pass through; floats are
`int(round(value))` (non-finite floats raise in CPython, modelled as `None`);
anything else is `int(str(value).strip())` with failures as `None`. -/
def coerce_int (value : JVal) : Option ℤ :=
  match value with
  | .null => none
  | .bool _ => none
  | .int n => some n
  | .float (.finite q) => some (round_half_even q)
  | .float _ => none
  | v => py_parse_int (py_strip (py_str_of v))

/-- `_coerce_float`: `None`/`bool` → `None`; ints and floats become floats;
anything else is `float(str(value).strip())` with failures as `None`. -/
def coerce_float (value : JVal) : Option PyFloat :=
  match value with
  | .null => none
  | .bool _ => none
  | .int n => some (.finite (n : ℚ))
  | .float x => some x
  | v => py_parse_float (py_strip (py_str_of v))

/-- Truthiness of a Python `Optional[str]` (both `None` and `""` are
falsy). -/
def opt_str_truthy : Option String → Bool
  | none => false
  | some s => !(s == "")

/-! ## Content-addressed identifiers -/

/-- One element of the part list handed to the stable-identifier hash.  The
ingestion code only ever passes `None`, strings and ints here (plus `bool`,
which the function special-cases first). -/
inductive HashPart where
  | none
  | bool (b : Bool)
  | str (s : String)
  | int (n : ℤ)
  deriving DecidableEq

/-- The canonicalization applied to each part inside `_stable_variant_id` and
`_stable_observation_id`: `None` → `""`, booleans → `"true"`/`"false"`,
anything else `str(part).strip().lower()`. -/
def canon_part : HashPart → String
  | .none => ""
  | .bool b => if b then "true" else "false"
  | .str s => py_lower (py_strip s)
  | .int n => py_lower (py_strip (toString n))

/-- `_stable_variant_id`. -/
def stable_variant_id (parts : List HashPart) : String :=
  "var_" ++ sha256_hexdigest (String.intercalate "|" (parts.map canon_part))

/-- `_stable_observation_id`. -/
def stable_observation_id (parts : List HashPart) : String :=
  "obs_" ++ sha256_hexdigest (String.intercalate "|" (parts.map canon_part))

def part_of_opt_str : Option String → HashPart
  | none => .none
  | some s => .str s

def part_of_opt_int : Option ℤ → HashPart
  | none => .none
  | some n => .int n

/-! ## Lexical normalizer (`normalize.py`)

The compiled regular expressions of the source are hand-translated: every
pattern is a word-boundary-delimited alternation of literals with optional
separator-padded groups, so matching is implemented positionally with the
exact alternative order and greedy/backtracking behaviour of `re`. -/

/-- Normalized hints extracted from a Bronze GPU listing
(`NormalizedCandidate`). -/
structure NormalizedCandidate where
  vendor_hint : Option String
  series_hint : Option String
  model_name_hint : Option String
  aib_manufacturer_hint : Option String
  model_suffix_hint : Option String
  vram_gb_hint : Option ℤ
  memory_type_hint : Option String
  hdmi_count_hint : Option ℤ
  displayport_count_hint : Option ℤ
  deriving DecidableEq

def empty_candidate : NormalizedCandidate :=
  ⟨none, none, none, none, none, none, none, none, none⟩

/-- Parsed model hints (`_ModelHints`). -/
structure ModelHints where
  vendor : Option String
  series_hint : Option String
  model_name_hint : Option String
  model_number : Option String
  model_tokens : List String
  deriving DecidableEq

/-- Matched AIB manufacturer (`_ManufacturerMatch`). -/
structure ManufacturerMatch where
  canonical : String
  tokens : List String
  deriving DecidableEq

/-- Characters kept by `_CLEAN_RE` (everything else becomes whitespace). -/
def keep_clean_char (c : Char) : Bool :=
  ('A' ≤ c && c ≤ 'Z') || c.isDigit || c == '-' || c == '+'

/-- `_clean_text`: uppercase, strip to `[A-Z0-9+-]` plus whitespace, collapse
whitespace runs, trim. -/
def clean_text_chars (l : List Char) : List Char :=
  py_strip_chars
    (collapse_ws ((l.map py_to_upper).map (fun c => if keep_clean_char c then c else ' ')))

def clean_text (s : String) : String := String.mk (clean_text_chars s.data)

/-- No word character follows: the trailing `\b` after a word character. -/
def boundary_after : List Char → Bool
  | [] => true
  | c :: _ => !is_word_char c

/-- Separators accepted by `[\s\-]*` in the model regexes. -/
def is_sep_char (c : Char) : Bool := py_is_space c || c == '-'

def drop_seps (l : List Char) : List Char := l.dropWhile is_sep_char

/-- Try the ordered alternatives of a word-bounded alternation at the current
position; each must be followed by a non-word character or the end. -/
def try_word_alts : List (List Char) → List Char → Option (List Char × List Char)
  | [], _ => none
  | alt :: alts, l =>
      match drop_tok alt l with
      | some rest => if boundary_after rest then some (alt, rest) else try_word_alts alts l
      | none => try_word_alts alts l

/-- `re.sub` of a word-bounded alternation of literals by a single space,
scanning left to right (`_MODEL_TOKEN_RE.sub(" ", text)`).  `prev_w` tracks
whether the preceding character is a word character (the leading `\b`). -/
def sub_word_alts_go (alts : List (List Char)) : Nat → Bool → List Char → List Char
  | 0, _, l => l
  | _, _, [] => []
  | n + 1, prev_w, c :: rest =>
      match (if prev_w then none else try_word_alts alts (c :: rest)) with
      | some (_, r) => ' ' :: sub_word_alts_go alts n true r
      | none => c :: sub_word_alts_go alts n (is_word_char c) rest

def sub_word_alts (alts : List (List Char)) (l : List Char) : List Char :=
  sub_word_alts_go alts l.length false l

/-- The brand tokens removed by `_MODEL_TOKEN_RE` (alternation order of the
source pattern). -/
def model_brand_tokens : List (List Char) :=
  ["nvidia", "amd", "geforce", "radeon", "rtx", "rx"].map String.data

/-- The substitution `(?<=\d)(?=[a-z])|(?<=[a-z])(?=\d)` → `" "`: insert a
space at every digit↔lowercase-letter adjacency. -/
def insert_digit_alpha_spaces : List Char → List Char
  | [] => []
  | [c] => [c]
  | a :: b :: rest =>
      if (is_digit_char a && is_lower_alpha b) || (is_lower_alpha a && is_digit_char b) then
        a :: ' ' :: insert_digit_alpha_spaces (b :: rest)
      else
        a :: insert_digit_alpha_spaces (b :: rest)

/-- `canonical_model_key`: lowercase, remove brand tokens, split letter↔digit
boundaries, collapse whitespace, trim. -/
def canonical_model_key (value : String) : String :=
  if value == "" then ""
  else
    let t1 := value.data.map py_to_lower
    let t2 := sub_word_alts model_brand_tokens t1
    let t3 := insert_digit_alpha_spaces t2
    String.mk (py_strip_chars (collapse_ws t3))

/-- Match `[\s\-]*` followed by a literal token. -/
def try_sep_tok (tok : List Char) (l : List Char) : Option (List Char) :=
  drop_tok tok (drop_seps l)

/-- `(?:[\s\-]*(TI))?(?:[\s\-]*(SUPER))?\b` after the captured digits, with
the regex engine's preference order over the two optional groups. -/
def nvidia_tail (r : List Char) : Option (Bool × Bool) :=
  let no_ti : Option (Bool × Bool) :=
    match try_sep_tok ['S', 'U', 'P', 'E', 'R'] r with
    | some r4 =>
        if boundary_after r4 then some (false, true)
        else if boundary_after r then some (false, false)
        else none
    | none => if boundary_after r then some (false, false) else none
  match try_sep_tok ['T', 'I'] r with
  | some r3 =>
      (match try_sep_tok ['S', 'U', 'P', 'E', 'R'] r3 with
       | some r4 =>
           if boundary_after r4 then some (true, true)
           else if boundary_after r3 then some (true, false)
           else no_ti
       | none =>
           if boundary_after r3 then some (true, false)
           else no_ti)
  | none => no_ti

/-- `_NVIDIA_MODEL_RE` at one position: number, `TI` flag, `SUPER` flag. -/
def match_nvidia_at (prev_w : Bool) (l : List Char) : Option (String × Bool × Bool) :=
  if prev_w then none
  else
    match drop_tok ['R', 'T', 'X'] l with
    | none => none
    | some r0 =>
        let r1 := drop_seps r0
        let digits := r1.takeWhile is_digit_char
        let r2 := r1.dropWhile is_digit_char
        if digits.length < 3 || 4 < digits.length then none
        else (nvidia_tail r2).map (fun p => (String.mk digits, p))

/-- `(?:[\s\-]*(XTX|XT|GRE))?\b` after the captured digits, alternatives in
source order with the group-absent fallback last. -/
def amd_tail (r : List Char) : Option (Option String) :=
  let fb_none : Option (Option String) :=
    if boundary_after r then some none else none
  let fb_gre : Option (Option String) :=
    match try_sep_tok ['G', 'R', 'E'] r with
    | some r3 => if boundary_after r3 then some (some "GRE") else fb_none
    | none => fb_none
  let fb_xt : Option (Option String) :=
    match try_sep_tok ['X', 'T'] r with
    | some r3 => if boundary_after r3 then some (some "XT") else fb_gre
    | none => fb_gre
  match try_sep_tok ['X', 'T', 'X'] r with
  | some r3 => if boundary_after r3 then some (some "XTX") else fb_xt
  | none => fb_xt

/-- `_AMD_MODEL_RE` at one position: number and optional suffix. -/
def match_amd_at (prev_w : Bool) (l : List Char) : Option (String × Option String) :=
  if prev_w then none
  else
    match drop_tok ['R', 'X'] l with
    | none => none
    | some r0 =>
        let r1 := drop_seps r0
        let digits := r1.takeWhile is_digit_char
        let r2 := r1.dropWhile is_digit_char
        if digits.length < 3 || 4 < digits.length then none
        else (amd_tail r2).map (fun sfx => (String.mk digits, sfx))

/-- `_INTEL_MODEL_RE` at one position: letter and number. -/
def match_intel_at (prev_w : Bool) (l : List Char) : Option (Char × String) :=
  if prev_w then none
  else
    match drop_tok ['A', 'R', 'C'] l with
    | none => none
    | some r0 =>
        match drop_seps r0 with
        | [] => none
        | c :: r1 =>
            if 'A' ≤ c && c ≤ 'Z' then
              let r2 := drop_seps r1
              let digits := r2.takeWhile is_digit_char
              let r3 := r2.dropWhile is_digit_char
              if digits.length < 3 || 4 < digits.length then none
              else if boundary_after r3 then some (c, String.mk digits) else none
            else none

/-- `re.search`: scan positions left to right, tracking the previous
character for the leading `\b`. -/
def search_go {α : Type} (matcher : Bool → List Char → Option α) :
    Bool → List Char → Option α
  | prev_w, [] => matcher prev_w []
  | prev_w, c :: rest =>
      match matcher prev_w (c :: rest) with
      | some r => some r
      | none => search_go matcher (is_word_char c) rest

def search_pat {α : Type} (matcher : Bool → List Char → Option α) (l : List Char) :
    Option α :=
  search_go matcher false l

/-- `re.search` returning the start index of the first match. -/
def search_idx_go {α : Type} (matcher : Bool → List Char → Option α) :
    Nat → Bool → List Char → Option Nat
  | i, prev_w, [] => (matcher prev_w []).map (fun _ => i)
  | i, prev_w, c :: rest =>
      match matcher prev_w (c :: rest) with
      | some _ => some i
      | none => search_idx_go matcher (i + 1) (is_word_char c) rest

def search_idx {α : Type} (matcher : Bool → List Char → Option α) (l : List Char) :
    Option Nat :=
  search_idx_go matcher 0 false l

/-- `_parse_model`: the three vendor model regexes in fixed order. -/
def parse_model (text : List Char) : ModelHints :=
  match search_pat match_nvidia_at text with
  | some (number, ti, sup) =>
      let name := "RTX " ++ number ++ (if ti then " Ti" else "") ++ (if sup then " SUPER" else "")
      let tokens := ["RTX", number] ++ (if ti then ["TI"] else []) ++ (if sup then ["SUPER"] else [])
      let series := if 4 ≤ number.length then some ("GeForce RTX " ++ String.mk (number.data.take 2)) else none
      ⟨some "NVIDIA", series, some name, some number, tokens⟩
  | none =>
  match search_pat match_amd_at text with
  | some (number, sfx) =>
      let name := "RX " ++ number ++ (match sfx with | some s => " " ++ s | none => "")
      let tokens := ["RX", number] ++ (match sfx with | some s => [s] | none => [])
      let series := if 4 ≤ number.length then some ("Radeon RX " ++ String.mk (number.data.take 1) ++ "000") else none
      ⟨some "AMD", series, some name, some number, tokens⟩
  | none =>
  match search_pat match_intel_at text with
  | some (letter, number) =>
      let code := String.mk [letter] ++ number
      ⟨some "INTEL", none, some ("ARC " ++ code), some number, ["ARC", code]⟩
  | none => ⟨none, none, none, none, []⟩

/-- A word-bounded alternation matcher built from literal alternatives. -/
def word_alts_matcher (alts : List (List Char)) (prev_w : Bool) (l : List Char) :
    Option (List Char × List Char) :=
  if prev_w then none else try_word_alts alts l

/-- `_VENDOR_PATTERNS` in source order. -/
def vendor_alt_patterns : List (String × List (List Char)) :=
  [("NVIDIA", ["NVIDIA", "GEFORCE", "RTX"].map String.data),
   ("AMD", ["AMD", "RADEON", "RX"].map String.data),
   ("INTEL", ["INTEL", "ARC"].map String.data)]

/-- `_infer_vendor`: earliest match start wins; earlier pattern wins ties. -/
def infer_vendor (text : List Char) : Option String :=
  (vendor_alt_patterns.foldl
    (fun best p =>
      match search_idx (word_alts_matcher p.2) text with
      | none => best
      | some i =>
          match best with
          | none => some (p.1, i)
          | some (v, j) => if i < j then some (p.1, i) else some (v, j))
    none).map Prod.fst

/-- Match one multi-word alias (`tokens` joined by `\s+`) at a position, with
word boundaries on both sides. -/
def match_alias_toks : List (List Char) → List Char → Option (List Char)
  | [], l => if boundary_after l then some l else none
  | [tok], l =>
      match drop_tok tok l with
      | some r => if boundary_after r then some r else none
      | none => none
  | tok :: toks, l =>
      match drop_tok tok l with
      | some r =>
          let r1 := r.dropWhile py_is_space
          if r1 == r then none else match_alias_toks toks r1
      | none => none

def alias_matcher (toks : List (List Char)) (prev_w : Bool) (l : List Char) :
    Option (List Char) :=
  if prev_w then none else match_alias_toks toks l

/-- `_AIB_PATTERNS`: canonical name and alias token lists, in the insertion
order of `_AIB_MANUFACTURER_ALIASES`. -/
def aib_patterns : List (String × List String) :=
  [("ASUS", ["ASUS"]), ("GIGABYTE", ["GIGABYTE"]), ("MSI", ["MSI"]),
   ("SAPPHIRE", ["SAPPHIRE"]), ("POWERCOLOR", ["POWERCOLOR"]),
   ("POWERCOLOR", ["POWER", "COLOR"]), ("ASROCK", ["ASROCK"]),
   ("ASROCK", ["AS", "ROCK"]), ("XFX", ["XFX"]), ("ACER", ["ACER"]),
   ("GAINWARD", ["GAINWARD"]), ("PALIT", ["PALIT"]), ("ZOTAC", ["ZOTAC"]),
   ("NVIDIA", ["NVIDIA"]), ("INTEL", ["INTEL"])]

/-- `_extract_aib_manufacturer`: earliest match start wins; earlier pattern
wins ties. -/
def extract_aib_manufacturer (text : List Char) : Option ManufacturerMatch :=
  (aib_patterns.foldl
    (fun best p =>
      match search_idx (alias_matcher (p.2.map String.data)) text with
      | none => best
      | some i =>
          match best with
          | none => some (ManufacturerMatch.mk p.1 p.2, i)
          | some (m, j) => if i < j then some (ManufacturerMatch.mk p.1 p.2, i) else some (m, j))
    none).map Prod.fst

/-- `_VRAM_GB_RE` (`\b(\d{1,3})\s*GB\b`) at one position; the group value. -/
def match_vram_gb_at (prev_w : Bool) (l : List Char) : Option Nat :=
  if prev_w then none
  else
    let run := l.takeWhile is_digit_char
    if run.isEmpty then none
    else
      (List.range (min 3 run.length)).foldl
        (fun acc back =>
          match acc with
          | some v => some v
          | none =>
              let k := min 3 run.length - back
              let ds := l.take k
              let rest := (l.drop k).dropWhile py_is_space
              match drop_tok ['G', 'B'] rest with
              | some r => if boundary_after r then some (digits_val ds) else none
              | none => none)
        none
where
  digits_val (ds : List Char) : Nat :=
    ds.foldl (fun a c => a * 10 + (c.toNat - 48)) 0

/-- `_extract_vram_gb`. -/
def extract_vram_gb (text : List Char) : Option ℤ :=
  (search_pat match_vram_gb_at text).map Int.ofNat

/-- `_MEMORY_TYPE_RE` alternatives in source order. -/
def memory_type_alts : List (List Char) :=
  ["GDDR6X", "GDDR7", "GDDR6"].map String.data

/-- `_extract_memory_type`. -/
def extract_memory_type (text : List Char) : Option String :=
  (search_pat (word_alts_matcher memory_type_alts) text).map
    (fun p => String.mk p.1)

/-- Match a sequence of literal chunks separated by `\s*`. -/
def port_chunk_seq : List (List Char) → List Char → Option (List Char)
  | [], l => some l
  | [tok], l => drop_tok tok l
  | tok :: toks, l =>
      match drop_tok tok l with
      | some r => port_chunk_seq toks (r.dropWhile py_is_space)
      | none => none

/-- Try the ordered alternatives of a connector-name alternation, each with
the trailing `\b`. -/
def port_alt_at : List (List (List Char)) → List Char → Option (List Char)
  | [], _ => none
  | chunks :: more, l =>
      match port_chunk_seq chunks l with
      | some rest => if boundary_after rest then some rest else port_alt_at more l
      | none => port_alt_at more l

/-- One match of a connector-count pattern
(`\b(\d+)\s*X\s*(alt ...)\b`): the count and the rest of the text. -/
def match_port_at (alts : List (List (List Char))) (prev_w : Bool) (l : List Char) :
    Option (Nat × List Char) :=
  if prev_w then none
  else
    let digits := l.takeWhile is_digit_char
    if digits.isEmpty then none
    else
      let r1 := (l.dropWhile is_digit_char).dropWhile py_is_space
      match r1 with
      | 'X' :: r2 =>
          let r3 := r2.dropWhile py_is_space
          match port_alt_at alts r3 with
          | some rest =>
              some (digits.foldl (fun a c => a * 10 + (c.toNat - 48)) 0, rest)
          | none => none
      | _ => none

/-- `re.finditer` over a connector-count pattern, summing the counts
(`_extract_port_count`); `total or None` at the end. -/
def port_count_go (alts : List (List (List Char))) :
    Nat → Bool → List Char → Nat → Bool → Option ℤ
  | 0, _, _, total, found =>
      if !found || total == 0 then none else some (Int.ofNat total)
  | _, _, [], total, found =>
      if !found || total == 0 then none else some (Int.ofNat total)
  | n + 1, prev_w, c :: rest, total, found =>
      match match_port_at alts prev_w (c :: rest) with
      | some (v, r) => port_count_go alts n true r (total + v) true
      | none => port_count_go alts n (is_word_char c) rest total found

def extract_port_count (alts : List (List (List Char))) (text : List Char) : Option ℤ :=
  port_count_go alts text.length false text 0 false

/-- `_HDMI_COUNT_RE` tail alternatives. -/
def hdmi_alts : List (List (List Char)) := [[String.data "HDMI"]]

/-- `_DP_COUNT_RE` tail alternatives, in source order: `DP`, `DISPLAYPORT`,
`DISPLAY\s*PORT`. -/
def dp_alts : List (List (List Char)) :=
  [[String.data "DP"], [String.data "DISPLAYPORT"],
   [String.data "DISPLAY", String.data "PORT"]]

/-- Token predicates used by `_extract_model_suffix`. -/
def vendor_token_set : List String := ["NVIDIA", "GEFORCE", "AMD", "RADEON", "INTEL", "ARC"]

def memory_token_set : List String := ["GDDR6", "GDDR6X", "GDDR7"]

def port_token_set : List String := ["HDMI", "DP", "DISPLAYPORT", "DISPLAY", "PORT"]

def is_numeric_token (tok : List Char) : Bool :=
  !tok.isEmpty && tok.all is_digit_char

/-- `_VRAM_TOKEN_RE.match` (`^\d{1,3}G(B)?$`), a full-token match. -/
def is_vram_token (tok : List Char) : Bool :=
  let ds := tok.takeWhile is_digit_char
  let rest := tok.dropWhile is_digit_char
  1 ≤ ds.length && ds.length ≤ 3 && (rest == ['G'] || rest == ['G', 'B'])

/-- `_VRAM_G_RE.match` (`\b(\d{1,3})G\b` anchored at the token start). -/
def is_vram_g_lead (tok : List Char) : Bool :=
  let ds := tok.takeWhile is_digit_char
  let rest := tok.dropWhile is_digit_char
  1 ≤ ds.length && ds.length ≤ 3 &&
    (match rest with
     | 'G' :: r => boundary_after r
     | _ => false)

/-- `_extract_model_suffix`. -/
def extract_model_suffix (text : List Char) (manufacturer : Option ManufacturerMatch)
    (mh : ModelHints) : Option String :=
  let toks := (split_ws text).map String.mk
  if toks.isEmpty then none
  else
    let remove := vendor_token_set ++ mh.model_tokens ++
      (match manufacturer with | some m => m.tokens | none => [])
    let number := (mh.model_number.getD "")
    let filtered := toks.filter (fun tok =>
      !(remove.contains tok) &&
      !(memory_token_set.contains tok) &&
      !(port_token_set.contains tok) &&
      !(is_numeric_token tok.data) &&
      !(is_vram_token tok.data) &&
      !(!(number == "") && contains_sub number.data tok.data) &&
      !(is_vram_g_lead tok.data))
    if filtered.isEmpty then none else some (String.intercalate " " filtered)

/-- `normalize`: all lexical hints from one Bronze record. -/
def normalize (bronze_record : JVal) : NormalizedCandidate :=
  match dict_get bronze_record "product_name_raw" with
  | .str raw =>
      if py_strip raw == "" then empty_candidate
      else
        let name_clean := clean_text_chars raw.data
        let head_clean := clean_text_chars (before_first_comma raw.data)
        let mh := parse_model name_clean
        let vendor :=
          match mh.vendor with
          | some v => some v
          | none => infer_vendor name_clean
        let manufacturer := extract_aib_manufacturer head_clean
        let suffix :=
          if opt_str_truthy mh.model_name_hint then
            extract_model_suffix head_clean manufacturer mh
          else none
        ⟨vendor, mh.series_hint, mh.model_name_hint,
         manufacturer.map ManufacturerMatch.canonical, suffix,
         extract_vram_gb name_clean, extract_memory_type name_clean,
         extract_port_count hdmi_alts name_clean, extract_port_count dp_alts name_clean⟩
  | _ => empty_candidate

/-! ## Chip catalog index and match resolver
(`ingest_variants_from_hypotheses.py`) -/

/-- A row of the reference table `gpu_chip`. -/
structure ChipRow where
  chip_id : String
  vendor_id : String
  model_name : String
  deriving DecidableEq

/-- A row of the reference table `gpu_memory` (`vram_gb` is nullable). -/
structure MemoryRow where
  chip_id : String
  vram_gb : Option ℤ
  deriving DecidableEq

/-- The rows produced by the catalog query's `LEFT JOIN` of `gpu_chip` with
`gpu_memory` on `chip_id`. -/
def left_join_memory (chips : List ChipRow) (mem : List MemoryRow) :
    List (String × String × String × Option ℤ) :=
  (chips.map (fun c =>
    let ms := mem.filter (fun m => m.chip_id == c.chip_id)
    if ms.isEmpty then [(c.chip_id, c.vendor_id, c.model_name, (none : Option ℤ))]
    else ms.map (fun m => (c.chip_id, c.vendor_id, c.model_name, m.vram_gb)))).flatten

/-- `vendor_id → model_key → [chip_id, …]`, as nested association lists. -/
def ChipIndex : Type := List (String × List (String × List String))

def alist_get {β : Type} : List (String × β) → String → Option β
  | [], _ => none
  | (k0, v) :: rest, k => if k0 == k then some v else alist_get rest k

/-- `d.setdefault(k, []).append(v)` on an association list. -/
def alist_append_at (l : List (String × List String)) (k v : String) :
    List (String × List String) :=
  match l with
  | [] => [(k, [v])]
  | (k0, vs) :: rest =>
      if k0 == k then (k0, vs ++ [v]) :: rest else (k0, vs) :: alist_append_at rest k v

def index_add (idx : ChipIndex) (vendor key chip : String) : ChipIndex :=
  match idx with
  | [] => [(vendor, [(key, [chip])])]
  | (v0, m) :: rest =>
      if v0 == vendor then (v0, alist_append_at m key chip) :: rest
      else (v0, m) :: index_add rest vendor key chip

/-- `_load_chip_index` over the joined catalog rows: canonical key per model
name, with the VRAM suffix appended whenever VRAM is known and the key does
not already contain `"gb"`. -/
def load_chip_index (rows : List (String × String × String × Option ℤ)) : ChipIndex :=
  rows.foldl
    (fun idx row =>
      let (chip_id, vendor_id, model_name, vram_gb) := row
      let model_key := canonical_model_key model_name
      if model_key == "" then idx
      else
        let model_key :=
          match vram_gb with
          | some v =>
              if contains_sub ['g', 'b'] model_key.data then model_key
              else model_key ++ " " ++ toString v ++ " gb"
          | none => model_key
        index_add idx vendor_id model_key chip_id)
    []

/-- Dict assignment `m[k] = v` (overwrite in place, append when new). -/
def dict_put (m : List (String × ℤ)) (k : String) (v : ℤ) : List (String × ℤ) :=
  match m with
  | [] => [(k, v)]
  | (k0, v0) :: rest =>
      if k0 == k then (k0, v) :: rest else (k0, v0) :: dict_put rest k v

/-- `_load_memory_map`: `chip_id → vram_gb`, rows with null VRAM skipped,
later rows overwriting earlier ones. -/
def load_memory_map (mem : List MemoryRow) : List (String × ℤ) :=
  mem.foldl
    (fun m r =>
      match r.vram_gb with
      | none => m
      | some v => dict_put m r.chip_id v)
    []

/-- `MatchAttempt` (tagged by `match_state`: `none` when matched, otherwise
`"missing"`, `"ambiguous"` or `"no_match"`). -/
structure MatchAttempt where
  chip_id : Option String
  candidates : List String
  match_state : Option String
  vendor_id : Option String
  model_key : Option String
  vram_gb : Option ℤ
  aib_manufacturer : Option String
  deriving DecidableEq

/-- `_select_chip_id`. -/
def select_chip_id (vendor_id model_key : String) (vram_gb : Option ℤ)
    (chip_index : ChipIndex) (vram_map : List (String × ℤ)) :
    Option String × List String × Option String :=
  let candidates := ((alist_get chip_index vendor_id).bind
    (fun m => alist_get m model_key)).getD []
  if candidates.isEmpty then (none, [], some "no_match")
  else
    match vram_gb with
    | none =>
        if candidates.length == 1 then (candidates.head?, candidates, none)
        else (none, candidates, some "ambiguous")
    | some v =>
        let filtered := candidates.filter (fun c => alist_get vram_map c == some v)
        if filtered.length == 1 then (filtered.head?, filtered, none)
        else if filtered.isEmpty then (none, candidates, some "no_match")
        else (none, filtered, some "ambiguous")

/-- `_normalize_vendor`: only exact (case-insensitive, stripped) `NVIDIA` or
`AMD` survive; everything else, Intel included, becomes `None`. -/
def normalize_vendor (value : JVal) : Option String :=
  match value with
  | .null => none
  | v =>
      let key := py_upper (py_strip (py_str_of v))
      if key == "NVIDIA" then some "NVIDIA"
      else if key == "AMD" then some "AMD"
      else none

def jval_of_opt_str : Option String → JVal
  | none => .null
  | some s => .str s

/-- `_attempt_match`. -/
def attempt_match (vendor_id : Option String) (model_raw : Option String)
    (vram_gb : Option ℤ) (chip_index : ChipIndex) (vram_map : List (String × ℤ))
    (aib_manufacturer : Option String) : MatchAttempt :=
  if !opt_str_truthy vendor_id || !opt_str_truthy model_raw then
    ⟨none, [], some "missing", vendor_id, none, vram_gb, none⟩
  else
    let mk0 := canonical_model_key (model_raw.getD "")
    let model_key :=
      match vram_gb with
      | some v =>
          if contains_sub ['g', 'b'] mk0.data then mk0
          else mk0 ++ " " ++ toString v ++ " gb"
      | none => mk0
    if model_key == "" then
      ⟨none, [], some "missing", vendor_id, some model_key, vram_gb, none⟩
    else
      let sel := select_chip_id (vendor_id.getD "") model_key vram_gb chip_index vram_map
      ⟨sel.1, sel.2.1, sel.2.2, vendor_id, some model_key, vram_gb,
       aib_manufacturer⟩

/-- Field lookup in an already-extracted object, `None` when absent. -/
def dget (fields : List (String × JVal)) (key : String) : JVal :=
  (obj_get fields key).getD .null

/-- `try_match_with_normalize`.  (`_coerce_int` is the identity on the
normalizer's `Optional[int]` VRAM hint, so the hint is passed through.) -/
def try_match_with_normalize (payload : JVal) (chip_index : ChipIndex)
    (vram_map : List (String × ℤ)) : MatchAttempt :=
  let input_fields := get_obj_fields payload "input"
  match dget input_fields "model_name" with
  | .str raw =>
      if py_strip raw == "" then ⟨none, [], some "missing", none, none, none, none⟩
      else
        let normalized := normalize (.obj [("product_name_raw", .str raw)])
        attempt_match (normalize_vendor (jval_of_opt_str normalized.vendor_hint))
          normalized.model_name_hint normalized.vram_gb_hint chip_index vram_map
          normalized.aib_manufacturer_hint
  | _ => ⟨none, [], some "missing", none, none, none, none⟩

/-- `try_match_with_extraction`. -/
def try_match_with_extraction (payload : JVal) (chip_index : ChipIndex)
    (vram_map : List (String × ℤ)) : MatchAttempt :=
  let extraction := get_obj_fields payload "extraction"
  attempt_match (normalize_vendor (dget extraction "chipset_manufacturer"))
    (coerce_str (dget extraction "chipset_model"))
    (coerce_int (dget extraction "vram_gb"))
    chip_index vram_map
    (coerce_str (dget extraction "aib_manufacturer"))

/-- The arbitration of the two attempts (`if normalize_attempt.chip_id:`),
with Python truthiness on the optional chip id. -/
def pick_match_attempt (normalize_attempt extraction_attempt : MatchAttempt) :
    MatchAttempt :=
  if opt_str_truthy normalize_attempt.chip_id then normalize_attempt
  else extraction_attempt

/-- The AIB-manufacturer fallback: the normalizer's hint when truthy, else the
extraction attempt's value. -/
def pick_aib_manufacturer (normalize_attempt extraction_attempt : MatchAttempt) :
    Option String :=
  if opt_str_truthy normalize_attempt.aib_manufacturer then
    normalize_attempt.aib_manufacturer
  else extraction_attempt.aib_manufacturer

/-- `_clean_dimensions`. -/
def clean_dimensions (length_mm : Option ℤ) (width_slots : Option PyFloat)
    (height_mm : Option ℤ) : Option ℤ × Option PyFloat × Option ℤ :=
  let length_mm :=
    match length_mm with
    | some l => if l ≤ 0 then none else some l
    | none => none
  let width_slots :=
    match width_slots with
    | some w =>
        if !(pf_le (.finite 2) w && pf_le w (.finite 4)) then none else some w
    | none => none
  let height_mm :=
    match height_mm with
    | some h => if h ≤ 0 then none else some h
    | none => none
  (length_mm, width_slots, height_mm)

/-- `_clean_non_negative`. -/
def clean_non_negative (value : Option ℤ) : Option ℤ :=
  match value with
  | none => none
  | some v => if v < 0 then none else some v

/-! ## Variant identity and ingestion (`ingest_variants`) -/

/-- A persisted `gpu_variant` row (the columns of the `INSERT`). -/
structure VariantRow where
  variant_id : String
  chip_id : String
  aib_manufacturer : String
  model_suffix : Option String
  factory_boost_mhz : Option ℤ
  length_mm : Option ℤ
  width_slots : Option PyFloat
  height_mm : Option ℤ
  power_connectors : Option String
  cooling_type : Option String
  fan_count : Option ℤ
  displayport_count : Option ℤ
  displayport_version : Option String
  hdmi_count : Option ℤ
  hdmi_version : Option String
  warranty_years : Option ℤ
  deriving DecidableEq

/-- The classified outcome of processing one parsed hypothesis document. -/
inductive VariantOutcome where
  | wrong_type
  | missing_fields
  | no_chip_match
  | ambiguous_chip
  | duplicate
  | inserted (row : VariantRow)
  deriving DecidableEq

/-- The summary counters of `ingest_variants` (read/parse failures happen
before a document reaches the per-document step and are counted separately
under `errors`). -/
structure VariantCounters where
  files_scanned : ℕ
  variants_inserted : ℕ
  skipped_missing_fields : ℕ
  skipped_no_chip_match : ℕ
  skipped_ambiguous_chip : ℕ
  skipped_duplicate : ℕ
  skipped_wrong_type : ℕ
  errors : ℕ
  deriving DecidableEq

/-- Counter increments for one processed document, exactly as the loop body
updates them (`files_scanned` always; never `errors`, which only read/parse
and SQL failures touch). -/
def variant_tally (o : VariantOutcome) (c : VariantCounters) : VariantCounters :=
  match o with
  | .wrong_type =>
      ⟨c.files_scanned + 1, c.variants_inserted, c.skipped_missing_fields,
       c.skipped_no_chip_match, c.skipped_ambiguous_chip, c.skipped_duplicate,
       c.skipped_wrong_type + 1, c.errors⟩
  | .missing_fields =>
      ⟨c.files_scanned + 1, c.variants_inserted, c.skipped_missing_fields + 1,
       c.skipped_no_chip_match, c.skipped_ambiguous_chip, c.skipped_duplicate,
       c.skipped_wrong_type, c.errors⟩
  | .no_chip_match =>
      ⟨c.files_scanned + 1, c.variants_inserted, c.skipped_missing_fields,
       c.skipped_no_chip_match + 1, c.skipped_ambiguous_chip, c.skipped_duplicate,
       c.skipped_wrong_type, c.errors⟩
  | .ambiguous_chip =>
      ⟨c.files_scanned + 1, c.variants_inserted, c.skipped_missing_fields,
       c.skipped_no_chip_match, c.skipped_ambiguous_chip + 1, c.skipped_duplicate,
       c.skipped_wrong_type, c.errors⟩
  | .duplicate =>
      ⟨c.files_scanned + 1, c.variants_inserted, c.skipped_missing_fields,
       c.skipped_no_chip_match, c.skipped_ambiguous_chip, c.skipped_duplicate + 1,
       c.skipped_wrong_type, c.errors⟩
  | .inserted _ =>
      ⟨c.files_scanned + 1, c.variants_inserted + 1, c.skipped_missing_fields,
       c.skipped_no_chip_match, c.skipped_ambiguous_chip, c.skipped_duplicate,
       c.skipped_wrong_type, c.errors⟩

/-- The arbitration of the two attempts for one hypothesis document. -/
def variant_arbitrated (chip_index : ChipIndex) (vram_map : List (String × ℤ))
    (payload : JVal) : MatchAttempt :=
  pick_match_attempt (try_match_with_normalize payload chip_index vram_map)
    (try_match_with_extraction payload chip_index vram_map)

/-- The resolved AIB manufacturer for one hypothesis document. -/
def variant_resolved_aib (chip_index : ChipIndex) (vram_map : List (String × ℤ))
    (payload : JVal) : Option String :=
  pick_aib_manufacturer (try_match_with_normalize payload chip_index vram_map)
    (try_match_with_extraction payload chip_index vram_map)

/-- Table-independent result of processing one parsed hypothesis document:
either a classified rejection or the fully sanitized row to insert. -/
inductive VariantPlan where
  | wrong_type
  | missing_fields
  | no_chip_match
  | ambiguous_chip
  | insert (row : VariantRow)
  deriving DecidableEq

/-- The per-document logic of `ingest_variants` up to (but excluding) the
`INSERT`: the type guard, arbitration of the two match attempts, the AIB
precondition, the chip precondition, field sanitization and the
content-addressed variant id.  None of it reads or writes the store. -/
def variant_ingest_plan (chip_index : ChipIndex) (vram_map : List (String × ℤ))
    (payload : JVal) : VariantPlan :=
  if !(match dict_get payload "hypothesis_type" with
       | .str s => s == "gpu_variant"
       | _ => false) then
    .wrong_type
  else
    let extraction := get_obj_fields payload "extraction"
    let match_attempt := variant_arbitrated chip_index vram_map payload
    let aib_manufacturer := variant_resolved_aib chip_index vram_map payload
    if !opt_str_truthy aib_manufacturer then .missing_fields
    else
      match match_attempt.chip_id with
      | none =>
          if match_attempt.match_state == some "missing" then .missing_fields
          else if match_attempt.match_state == some "ambiguous" then .ambiguous_chip
          else .no_chip_match
      | some chip_id =>
          let model_suffix := coerce_str
            (py_or (dget extraction "aib_model_suffix") (dget extraction "model_suffix"))
          let part_number := coerce_str (dget extraction "part_number")
          let variant_id := stable_variant_id
            [part_of_opt_str match_attempt.vendor_id,
             part_of_opt_str match_attempt.model_key,
             part_of_opt_int match_attempt.vram_gb,
             part_of_opt_str aib_manufacturer,
             part_of_opt_str model_suffix,
             part_of_opt_str part_number]
          let factory_boost_mhz := coerce_int (dget extraction "factory_boost_mhz")
          let dims := clean_dimensions
            (coerce_int (dget extraction "length_mm"))
            (coerce_float (dget extraction "width_slots"))
            (coerce_int (dget extraction "height_mm"))
          let cooling_type0 := coerce_str (dget extraction "cooling_type")
          let cooling_type :=
            if cooling_type0 == none || cooling_type0 == some "Air" ||
               cooling_type0 == some "Liquid" || cooling_type0 == some "Hybrid" then
              cooling_type0
            else none
          .insert
            ⟨variant_id, chip_id, aib_manufacturer.getD "", model_suffix,
             factory_boost_mhz, dims.1, dims.2.1, dims.2.2,
             coerce_str (dget extraction "power_connectors"), cooling_type,
             clean_non_negative (coerce_int (dget extraction "fan_count")),
             clean_non_negative (coerce_int (dget extraction "displayport_count")),
             coerce_str (dget extraction "displayport_version"),
             clean_non_negative (coerce_int (dget extraction "hdmi_count")),
             coerce_str (dget extraction "hdmi_version"),
             clean_non_negative (coerce_int (dget extraction "warranty_years"))⟩

/-- The per-document body of `ingest_variants` (non-dry-run): the plan above
followed by `INSERT … ON CONFLICT(variant_id) DO NOTHING`.  The inserted
`chip_id` always originates from the catalog index, so the chip foreign key
of the store is satisfied and the insert is modelled as succeeding. -/
def ingest_variant_doc (chip_index : ChipIndex) (vram_map : List (String × ℤ))
    (payload : JVal) (table : List VariantRow) : List VariantRow × VariantOutcome :=
  match variant_ingest_plan chip_index vram_map payload with
  | .wrong_type => (table, .wrong_type)
  | .missing_fields => (table, .missing_fields)
  | .no_chip_match => (table, .no_chip_match)
  | .ambiguous_chip => (table, .ambiguous_chip)
  | .insert row =>
      if table.any (fun r => r.variant_id == row.variant_id) then (table, .duplicate)
      else (table ++ [row], .inserted row)

/-! ## Observation reconciliation (`ingest_market_observations.py`) -/

/-- `IndexEntry` (the path is only used for log messages and is omitted). -/
structure IndexEntry where
  hypotheses : List JVal
  product_url : Option String
  normalized_name : Option String

/-- A persisted `gpu_market_observation` row (the columns of the `INSERT`;
`currency` is populated only when the target schema carries the column). -/
structure ObservationRow where
  observation_id : String
  variant_id : String
  retailer : String
  sku : Option String
  product_url : String
  price_eur : PyFloat
  stock_status : Option String
  observed_at : String
  scrape_run_id : String
  currency : Option String
  deriving DecidableEq

/-- The classified outcome of processing one marketplace observation record.
`insert_error` models the SQL failure of an insert whose `variant_id` does
not satisfy the store's foreign key (counted under `errors`, not a skip). -/
inductive ObservationOutcome where
  | no_index_entry
  | ambiguous_index_entry
  | no_hypothesis
  | ambiguous_hypothesis
  | missing_hypothesis_file
  | missing_fields
  | no_chip_match
  | ambiguous_chip
  | invalid_price
  | invalid_stock_status
  | duplicate
  | insert_error
  | inserted (row : ObservationRow)
  deriving DecidableEq

def allowed_stock_status : List String :=
  ["in_stock", "low_stock", "preorder", "out_of_stock", "discontinued"]

/-- Table-independent result of validating one observation record: either a
classified rejection or the row to insert. -/
inductive ObservationPlan where
  | missing_fields
  | invalid_price
  | invalid_stock_status
  | insert (row : ObservationRow)
  deriving DecidableEq

/-- Field validation for one observation record, given the recomputed variant
identity (the tail of the per-record loop, excluding the `INSERT`):
identifier presence, currency requirement, price and stock-status checks and
the content-addressed observation id. -/
def observation_row_plan (include_currency : Bool) (record : JVal)
    (variant_id : String) : ObservationPlan :=
  let retailer := coerce_str (dict_get record "retailer")
  let product_url := coerce_str (dict_get record "product_url")
  let price_eur := coerce_float (dict_get record "price_eur")
  let currency := coerce_str (dict_get record "currency")
  let observed_at := coerce_str (dict_get record "observed_at_utc")
  let scrape_run_id := coerce_str (dict_get record "scrape_run_id")
  let sku := coerce_str (dict_get record "sku")
  let stock_status := coerce_str (dict_get record "stock_status")
  if !opt_str_truthy retailer || !opt_str_truthy product_url ||
     !opt_str_truthy observed_at || !opt_str_truthy scrape_run_id then
    .missing_fields
  else if currency == none && include_currency then .missing_fields
  else
    match price_eur with
    | none => .invalid_price
    | some p =>
        if pf_le p (.finite 0) then .invalid_price
        else if (match stock_status with
                 | some s => !(allowed_stock_status.contains s)
                 | none => false) then
          .invalid_stock_status
        else
          let observation_id := stable_observation_id
            [HashPart.str variant_id, part_of_opt_str retailer,
             part_of_opt_str product_url, part_of_opt_str observed_at]
          .insert
            ⟨observation_id, variant_id, retailer.getD "", sku,
             product_url.getD "", p, stock_status, observed_at.getD "",
             scrape_run_id.getD "",
             if include_currency then currency else none⟩

/-- Field validation and insertion for one observation record: the plan above
followed by `INSERT … ON CONFLICT(observation_id) DO NOTHING` (a row whose
`variant_id` is absent from `gpu_variant` violates the store's foreign key
and surfaces as a SQL error). -/
def validate_observation (include_currency : Bool) (record : JVal)
    (variant_id : String) (variant_table : List VariantRow)
    (table : List ObservationRow) : List ObservationRow × ObservationOutcome :=
  match observation_row_plan include_currency record variant_id with
  | .missing_fields => (table, .missing_fields)
  | .invalid_price => (table, .invalid_price)
  | .invalid_stock_status => (table, .invalid_stock_status)
  | .insert row =>
      if table.any (fun r => r.observation_id == row.observation_id) then
        (table, .duplicate)
      else if !(variant_table.any (fun r => r.variant_id == row.variant_id)) then
        (table, .insert_error)
      else (table ++ [row], .inserted row)

/-- The classified skips of the resolution stage (steps 1–3 of the
per-record loop). -/
inductive ObservationSkip where
  | no_index_entry
  | ambiguous_index_entry
  | no_hypothesis
  | ambiguous_hypothesis
  | missing_hypothesis_file
  | missing_fields
  | no_chip_match
  | ambiguous_chip
  deriving DecidableEq

def observation_skip_outcome : ObservationSkip → ObservationOutcome
  | .no_index_entry => .no_index_entry
  | .ambiguous_index_entry => .ambiguous_index_entry
  | .no_hypothesis => .no_hypothesis
  | .ambiguous_hypothesis => .ambiguous_hypothesis
  | .missing_hypothesis_file => .missing_hypothesis_file
  | .missing_fields => .missing_fields
  | .no_chip_match => .no_chip_match
  | .ambiguous_chip => .ambiguous_chip

/-- The shared identity derivation of `ingest_market_observations` applied to
the linked hypothesis document (the block the source labels shared logic):
the same arbitration, AIB fallback, chip precondition and hash as variant
ingestion, transcribed from the observation script. -/
def observation_identity_stage (chip_index : ChipIndex)
    (vram_map : List (String × ℤ)) (hypothesis_payload : JVal) :
    Sum ObservationSkip String :=
  let extraction := get_obj_fields hypothesis_payload "extraction"
  let normalize_attempt := try_match_with_normalize hypothesis_payload chip_index vram_map
  let extraction_attempt := try_match_with_extraction hypothesis_payload chip_index vram_map
  let match_attempt :=
    if opt_str_truthy normalize_attempt.chip_id then normalize_attempt
    else extraction_attempt
  let aib_manufacturer :=
    if opt_str_truthy normalize_attempt.aib_manufacturer then
      normalize_attempt.aib_manufacturer
    else extraction_attempt.aib_manufacturer
  if !opt_str_truthy aib_manufacturer then .inl .missing_fields
  else
    match match_attempt.chip_id with
    | none =>
        if match_attempt.match_state == some "missing" then .inl .missing_fields
        else if match_attempt.match_state == some "ambiguous" then .inl .ambiguous_chip
        else .inl .no_chip_match
    | some _ =>
        let model_suffix := coerce_str
          (py_or (dget extraction "aib_model_suffix") (dget extraction "model_suffix"))
        let part_number := coerce_str (dget extraction "part_number")
        .inr (stable_variant_id
          [part_of_opt_str match_attempt.vendor_id,
           part_of_opt_str match_attempt.model_key,
           part_of_opt_int match_attempt.vram_gb,
           part_of_opt_str aib_manufacturer,
           part_of_opt_str model_suffix,
           part_of_opt_str part_number])

/-- Steps 1–3 of the per-record loop: look up the index entry by the file
named `sha256(product_url).json`, demand exactly one listed hypothesis, load
it, and run the shared identity derivation.  The index store maps a file stem
to its parsed content; the hypothesis store maps a relative path to its
parsed document (a missing key models a missing file; a non-string hypothesis
reference also resolves to no file). -/
def observation_resolution (chip_index : ChipIndex)
    (vram_map : List (String × ℤ)) (index_store : List (String × JVal))
    (hyp_store : List (String × JVal)) (record : JVal) :
    Sum ObservationSkip String :=
  let product_url_lookup := coerce_str (dict_get record "product_url")
  let index_payload : Option JVal :=
    match product_url_lookup with
    | none => none
    | some url => alist_get index_store (sha256_hexdigest url)
  let index_entries : List IndexEntry :=
    match index_payload with
    | none => []
    | some p =>
        let hyps :=
          match py_or (dict_get p "hypotheses") (.arr []) with
          | .arr xs => xs
          | _ => []
        [⟨hyps, coerce_str (dict_get p "product_url"),
          coerce_str (dict_get p "normalized_name")⟩]
  if index_entries.isEmpty then .inl .no_index_entry
  else if 1 < index_entries.length then .inl .ambiguous_index_entry
  else
    match index_entries.head? with
    | none => .inl .no_index_entry
    | some entry =>
        if entry.hypotheses.isEmpty then .inl .no_hypothesis
        else if 1 < entry.hypotheses.length then .inl .ambiguous_hypothesis
        else
          let hyp_path : Option String :=
            match entry.hypotheses.head? with
            | some (.str s) => some s
            | _ => none
          match hyp_path.bind (alist_get hyp_store) with
          | none => .inl .missing_hypothesis_file
          | some hypothesis_payload =>
              observation_identity_stage chip_index vram_map hypothesis_payload

/-- The per-record body of `ingest_market_observations` (non-dry-run):
resolution of the linked variant identity, then field validation and the
insert. -/
def ingest_observation_record (chip_index : ChipIndex)
    (vram_map : List (String × ℤ)) (index_store : List (String × JVal))
    (hyp_store : List (String × JVal)) (include_currency : Bool) (record : JVal)
    (variant_table : List VariantRow) (table : List ObservationRow) :
    List ObservationRow × ObservationOutcome :=
  match observation_resolution chip_index vram_map index_store hyp_store record with
  | .inl s => (table, observation_skip_outcome s)
  | .inr variant_id =>
      validate_observation include_currency record variant_id variant_table table

/-! ## The identity derivations of the two pipelines, side by side -/

/-- The variant identity computed by `ingest_variants` from one parsed
hypothesis document (lines 515–641 of the source): `none` when the document
is rejected before the hash is computed. -/
def ingest_variants_variant_id (chip_index : ChipIndex)
    (vram_map : List (String × ℤ)) (payload : JVal) : Option String :=
  if !(match dict_get payload "hypothesis_type" with
       | .str s => s == "gpu_variant"
       | _ => false) then
    none
  else
    let extraction := get_obj_fields payload "extraction"
    let normalize_attempt := try_match_with_normalize payload chip_index vram_map
    let extraction_attempt := try_match_with_extraction payload chip_index vram_map
    let match_attempt :=
      if opt_str_truthy normalize_attempt.chip_id then normalize_attempt
      else extraction_attempt
    let aib_manufacturer :=
      if opt_str_truthy normalize_attempt.aib_manufacturer then
        normalize_attempt.aib_manufacturer
      else extraction_attempt.aib_manufacturer
    if !opt_str_truthy aib_manufacturer then none
    else
      match match_attempt.chip_id with
      | none => none
      | some _ =>
          let model_suffix := coerce_str
            (py_or (dget extraction "aib_model_suffix") (dget extraction "model_suffix"))
          let part_number := coerce_str (dget extraction "part_number")
          some (stable_variant_id
            [part_of_opt_str match_attempt.vendor_id,
             part_of_opt_str match_attempt.model_key,
             part_of_opt_int match_attempt.vram_gb,
             part_of_opt_str aib_manufacturer,
             part_of_opt_str model_suffix,
             part_of_opt_str part_number])

/-- The variant identity recomputed by `ingest_market_observations` from the
linked hypothesis document: `none` when the document is rejected before the
hash that keys the observation is computed.  The observation script has no
`hypothesis_type` guard. -/
def ingest_observations_variant_id (chip_index : ChipIndex)
    (vram_map : List (String × ℤ)) (hypothesis_payload : JVal) : Option String :=
  match observation_identity_stage chip_index vram_map hypothesis_payload with
  | .inl _ => none
  | .inr variant_id => some variant_id

/-- All chip ids grouped under one vendor of the index. -/
def vendor_chip_ids (chip_index : ChipIndex) (vendor : String) : List String :=
  (((alist_get chip_index vendor).getD []).map Prod.snd).flatten

/-- All chip ids stored anywhere in the index. -/
def index_chip_ids (chip_index : ChipIndex) : List String :=
  (chip_index.map (fun v => (v.2.map Prod.snd).flatten)).flatten

/-! ## Concrete fixtures for witnesses and counterexamples -/

/-- A one-chip catalog: NVIDIA "RTX 5070 Ti" with 16 GB. -/
def fix_chips_a : List ChipRow := [⟨"A1", "NVIDIA", "RTX 5070 Ti"⟩]

def fix_mem_a : List MemoryRow := [⟨"A1", some 16⟩]

def fix_index_a : ChipIndex := load_chip_index (left_join_memory fix_chips_a fix_mem_a)

def fix_vmap_a : List (String × ℤ) := load_memory_map fix_mem_a

/-- The same catalog plus a second chip sharing the pre-VRAM model key with
8 GB. -/
def fix_chips_ab : List ChipRow :=
  [⟨"A1", "NVIDIA", "RTX 5070 Ti"⟩, ⟨"B1", "NVIDIA", "RTX 5070 Ti"⟩]

def fix_mem_ab : List MemoryRow := [⟨"A1", some 16⟩, ⟨"B1", some 8⟩]

def fix_index_ab : ChipIndex := load_chip_index (left_join_memory fix_chips_ab fix_mem_ab)

def fix_vmap_ab : List (String × ℤ) := load_memory_map fix_mem_ab

/-- A hypothesis document whose extraction resolves to chip `A1`. -/
def fix_payload : JVal :=
  .obj [("hypothesis_type", .str "gpu_variant"),
        ("extraction", .obj
          [("chipset_manufacturer", .str "NVIDIA"),
           ("chipset_model", .str "RTX 5070 Ti"),
           ("vram_gb", .int 16),
           ("aib_manufacturer", .str "MSI"),
           ("part_number", .str "PN-1")])]

def fix_variant_id : String :=
  stable_variant_id
    [HashPart.str "NVIDIA", HashPart.str "5070 ti 16 gb", HashPart.int 16,
     HashPart.str "MSI", HashPart.none, HashPart.str "PN-1"]

/-- The row `ingest_variants` inserts for `fix_payload`. -/
def fix_variant_row : VariantRow :=
  ⟨fix_variant_id, "A1", "MSI", none, none, none, none, none, none, none,
   none, none, none, none, none, none⟩

def fix_url : String := "https://x/a1.html"

/-- The index document stored under the file stem `sha256(fix_url)`. -/
def fix_index_doc : JVal :=
  .obj [("product_url", .str fix_url),
        ("normalized_name", .str "rtx 5070 ti msi"),
        ("hypotheses", .arr [.str "hypotheses/h1.json"]),
        ("marketplace_observations",
         .arr [.str "marketplace/geizhals/runs/r1/page_pg=1.products.json#0"])]

def fix_index_store : List (String × JVal) := [(sha256_hexdigest fix_url, fix_index_doc)]

def fix_hyp_store : List (String × JVal) := [("hypotheses/h1.json", fix_payload)]

/-- A fully valid marketplace observation for `fix_url`. -/
def fix_record : JVal :=
  .obj [("retailer", .str "geizhals"),
        ("product_url", .str fix_url),
        ("price_eur", .float (.finite 899)),
        ("currency", .str "EUR"),
        ("stock_status", .str "in_stock"),
        ("observed_at_utc", .str "2025-01-01T00:00:00Z"),
        ("scrape_run_id", .str "r1")]

def fix_obs_id : String :=
  stable_observation_id
    [HashPart.str fix_variant_id, HashPart.str "geizhals", HashPart.str fix_url,
     HashPart.str "2025-01-01T00:00:00Z"]

/-- The row `ingest_market_observations` inserts for `fix_record`. -/
def fix_obs_row : ObservationRow :=
  ⟨fix_obs_id, fix_variant_id, "geizhals", none, fix_url, .finite 899,
   some "in_stock", "2025-01-01T00:00:00Z", "r1", some "EUR"⟩

/-- A second index document whose content references the same URL and
observation but lives under a different file stem. -/
def c9_other_doc : JVal :=
  .obj [("product_url", .str fix_url),
        ("normalized_name", .str "rtx 5070 ti msi"),
        ("hypotheses", .arr [.str "hypotheses/h2.json"]),
        ("marketplace_observations",
         .arr [.str "marketplace/geizhals/runs/r1/page_pg=1.products.json#0"])]

/-- An index store in which two distinct documents reference `fix_url`. -/
def c9_index_store : List (String × JVal) :=
  [(sha256_hexdigest fix_url, fix_index_doc), ("another_index_file", c9_other_doc)]

/-- An observation record whose price is positive infinity and whose other
fields are all valid. -/
def c8_record : JVal :=
  .obj [("retailer", .str "geizhals"),
        ("product_url", .str fix_url),
        ("price_eur", .float .inf),
        ("currency", .str "EUR"),
        ("stock_status", .str "in_stock"),
        ("observed_at_utc", .str "2025-01-01T00:00:00Z"),
        ("scrape_run_id", .str "r1")]

def c8_variant_row : VariantRow :=
  ⟨"var_x", "A1", "MSI", none, none, none, none, none, none, none,
   none, none, none, none, none, none⟩

def c8_obs_id : String :=
  stable_observation_id
    [HashPart.str "var_x", HashPart.str "geizhals", HashPart.str fix_url,
     HashPart.str "2025-01-01T00:00:00Z"]

def c8_obs_row : ObservationRow :=
  ⟨c8_obs_id, "var_x", "geizhals", none, fix_url, .inf,
   some "in_stock", "2025-01-01T00:00:00Z", "r1", some "EUR"⟩

/-- An observation record with a negative price and valid identifiers. -/
def c8_witness_record : JVal :=
  .obj [("retailer", .str "geizhals"),
        ("product_url", .str fix_url),
        ("price_eur", .float (.finite (-5))),
        ("currency", .str "EUR"),
        ("observed_at_utc", .str "2025-01-01T00:00:00Z"),
        ("scrape_run_id", .str "r1")]

/-! ## Supporting lemmas -/

theorem opt_str_truthy_iff {o : Option String} :
    opt_str_truthy o = true ↔ ∃ a, o = some a ∧ a ≠ "" := by
  cases o with
  | none => simp [opt_str_truthy]
  | some s => simp [opt_str_truthy]

theorem filter_append_single_length {α : Type} (p : α → Bool) (t : List α) (x : α)
    (ht : t.any p = false) (hx : p x = true) :
    ((t ++ [x]).filter p).length = 1 := by
  induction t with
  | nil => simp [hx]
  | cons a t ih =>
      simp only [List.any_cons, Bool.or_eq_false_iff] at ht
      simpa [List.filter_cons, ht.1] using ih ht.2

theorem alist_get_mem {β : Type} {l : List (String × β)} {k : String} {b : β}
    (h : alist_get l k = some b) : (k, b) ∈ l := by
  induction l with
  | nil => simp [alist_get] at h
  | cons kv rest ih =>
      obtain ⟨k0, v⟩ := kv
      by_cases hk : (k0 == k) = true
      · rw [alist_get, if_pos hk] at h
        obtain rfl : v = b := by injection h
        obtain rfl : k0 = k := beq_iff_eq.mp hk
        exact List.mem_cons_self _ _
      · rw [alist_get, if_neg hk] at h
        exact List.mem_cons_of_mem _ (ih h)

/-- A resolved chip id always comes from the candidate list of its vendor in
the index. -/
theorem select_chip_id_mem {vendor key : String} {vram : Option ℤ}
    {chip_index : ChipIndex} {vram_map : List (String × ℤ)} {c : String}
    (h : (select_chip_id vendor key vram chip_index vram_map).1 = some c) :
    c ∈ vendor_chip_ids chip_index vendor := by
  unfold select_chip_id at h
  cases hm : alist_get chip_index vendor with
  | none => rw [hm] at h; simp at h
  | some m =>
      rw [hm] at h
      simp only [Option.some_bind] at h
      cases hk : alist_get m key with
      | none => rw [hk] at h; simp at h
      | some chips =>
          rw [hk] at h
          simp only [Option.getD_some] at h
          have hc : c ∈ chips := by
            cases vram with
            | none =>
                simp only at h
                split at h
                · simp at h
                · split at h
                  · simp only at h
                    exact List.mem_of_mem_head? (by simp [h])
                  · simp at h
            | some v =>
                simp only at h
                split at h
                · simp at h
                · split at h
                  · simp only at h
                    have hmemf : c ∈ chips.filter (fun x => alist_get vram_map x == some v) :=
                      List.mem_of_mem_head? (by simp [h])
                    exact List.mem_of_mem_filter hmemf
                  · split at h
                    · simp at h
                    · simp at h
          unfold vendor_chip_ids
          rw [hm]
          simp only [Option.getD_some, List.mem_flatten]
          exact ⟨chips, List.mem_map.mpr ⟨(key, chips), alist_get_mem hk, rfl⟩, hc⟩

/-- A resolved chip id of `_attempt_match` comes from the index, and the
vendor argument was a non-empty string. -/
theorem attempt_match_chip_mem {vendor_id model_raw : Option String}
    {vram : Option ℤ} {chip_index : ChipIndex} {vram_map : List (String × ℤ)}
    {aib : Option String} {c : String}
    (h : (attempt_match vendor_id model_raw vram chip_index vram_map aib).chip_id = some c) :
    ∃ vs, vendor_id = some vs ∧ c ∈ vendor_chip_ids chip_index vs := by
  unfold attempt_match at h
  by_cases hv : (!opt_str_truthy vendor_id || !opt_str_truthy model_raw) = true
  · rw [if_pos hv] at h; simp at h
  · rw [if_neg hv] at h
    have hvt : opt_str_truthy vendor_id = true := by
      simp only [Bool.or_eq_true, Bool.not_eq_true', not_or, Bool.not_eq_false] at hv
      exact hv.1
    obtain ⟨vs, hvs, -⟩ := opt_str_truthy_iff.mp hvt
    subst hvs
    refine ⟨vs, rfl, ?_⟩
    cases vram with
    | none =>
        simp only at h
        split at h
        · simp at h
        · simp only at h
          exact select_chip_id_mem h
    | some v =>
        simp only at h
        split at h
        all_goals split at h
        all_goals
          first
          | exact select_chip_id_mem h
          | simp at h

/-! ## Claims -/

/-- **C2.** For every two part lists that are equal after the
canonicalization applied inside `_stable_variant_id` and
`_stable_observation_id` — `None` identified with the empty string, booleans
rendered `"true"`/`"false"`, every other value stringified, stripped of
surrounding whitespace and lower-cased — the two hash functions return the
same identifier; both are pure, deterministic functions of their inputs. -/
theorem c2_stable_ids_canonicalization (xs ys : List HashPart)
    (h : xs.map canon_part = ys.map canon_part) :
    stable_variant_id xs = stable_variant_id ys ∧
    stable_observation_id xs = stable_observation_id ys := by
  unfold stable_variant_id stable_observation_id
  rw [h]
  exact ⟨rfl, rfl⟩

/-- Witness for C2: a 6-tuple of variant-identity inputs in two spellings
(case, surrounding whitespace, null-vs-empty) that canonicalize equally. -/
theorem c2_stable_ids_canonicalization_witness :
    ([HashPart.str "NVIDIA", HashPart.str "5070 ti", HashPart.int 16,
      HashPart.str " MSI ", HashPart.none, HashPart.bool true].map canon_part =
     [HashPart.str " nvidia ", HashPart.str "5070 ti", HashPart.int 16,
      HashPart.str "msi", HashPart.str "  ", HashPart.bool true].map canon_part) ∧
    stable_variant_id
      [HashPart.str "NVIDIA", HashPart.str "5070 ti", HashPart.int 16,
       HashPart.str " MSI ", HashPart.none, HashPart.bool true] =
    stable_variant_id
      [HashPart.str " nvidia ", HashPart.str "5070 ti", HashPart.int 16,
       HashPart.str "msi", HashPart.str "  ", HashPart.bool true] :=
  ⟨by decide, (c2_stable_ids_canonicalization _ _ (by decide)).1⟩

/-- **C5 (counterexample).** With chips A (16 GB) and B (8 GB) sharing the
pre-VRAM model key, resolving (NVIDIA, "RTX 5070 Ti") with `vram_gb` absent
does not yield the ambiguous state claimed: the index keys always embed the
VRAM suffix, so the lookup finds no candidates and reports `no_match`. -/
theorem c5_counterexample :
    (attempt_match (some "NVIDIA") (some "RTX 5070 Ti") none fix_index_ab fix_vmap_ab
      none).match_state ≠ some "ambiguous" ∧
    (attempt_match (some "NVIDIA") (some "RTX 5070 Ti") none fix_index_ab fix_vmap_ab
      none).match_state = some "no_match" := by decide

/-- **C5 (amended).** For the catalog with chip A (NVIDIA, "RTX 5070 Ti",
16 GB): resolving (NVIDIA, "RTX 5070 Ti", 16) matches A; resolving with
vram = 8 yields `no_match`; and with a second chip B sharing the pre-VRAM key
at 8 GB, resolving with `vram_gb` absent yields `no_match` with an empty
candidate list (not the ambiguous state), because every index key carries the
VRAM suffix. -/
theorem c5_amended :
    (attempt_match (some "NVIDIA") (some "RTX 5070 Ti") (some 16) fix_index_a fix_vmap_a
      none).chip_id = some "A1" ∧
    (attempt_match (some "NVIDIA") (some "RTX 5070 Ti") (some 16) fix_index_a fix_vmap_a
      none).match_state = none ∧
    (attempt_match (some "NVIDIA") (some "RTX 5070 Ti") (some 8) fix_index_a fix_vmap_a
      none).chip_id = none ∧
    (attempt_match (some "NVIDIA") (some "RTX 5070 Ti") (some 8) fix_index_a fix_vmap_a
      none).match_state = some "no_match" ∧
    attempt_match (some "NVIDIA") (some "RTX 5070 Ti") none fix_index_ab fix_vmap_ab none =
      ⟨none, [], some "no_match", some "NVIDIA", some "5070 ti", none, none⟩ := by decide

/-- **C6 (counterexample).** `canonical_model_key "RTX 5070 Ti"` differs from
`canonical_model_key "rtx5070ti"`: brand-token removal runs before the
letter↔digit boundary split, so the attached `rtx` of `"rtx5070ti"` survives
into the key. -/
theorem c6_counterexample :
    canonical_model_key "RTX 5070 Ti" ≠ canonical_model_key "rtx5070ti" := by decide

/-- **C6 (amended).** The two keys are `"5070 ti"` and `"rtx 5070 ti"`
respectively; the claimed equality holds when the brand token is detached, as
in `"rtx 5070ti"`. -/
theorem c6_amended :
    canonical_model_key "RTX 5070 Ti" = "5070 ti" ∧
    canonical_model_key "rtx5070ti" = "rtx 5070 ti" ∧
    canonical_model_key "RTX 5070 Ti" = canonical_model_key "rtx 5070ti" := by decide

/-- **C3.** For every `gpu_variant` hypothesis document and every fixed chip
index and VRAM map, the variant identity recomputed by the
observation-reconciliation pipeline is identical to the one computed by the
variant-ingestion pipeline from the same document: both run the same two
match attempts, the same arbitration, the same AIB fallback, and hash the
same six fields — including agreement on which documents are rejected before
an identity is produced. -/
theorem c3_cross_pipeline_variant_id (chip_index : ChipIndex)
    (vram_map : List (String × ℤ)) (payload : JVal)
    (h : dict_get payload "hypothesis_type" = JVal.str "gpu_variant") :
    ingest_observations_variant_id chip_index vram_map payload =
      ingest_variants_variant_id chip_index vram_map payload := by
  unfold ingest_observations_variant_id observation_identity_stage
    ingest_variants_variant_id
  rw [h]
  simp only [beq_self_eq_true, Bool.not_true, Bool.false_eq_true, if_false]
  by_cases haib :
      opt_str_truthy
        (if opt_str_truthy
              (try_match_with_normalize payload chip_index vram_map).aib_manufacturer then
           (try_match_with_normalize payload chip_index vram_map).aib_manufacturer
         else (try_match_with_extraction payload chip_index vram_map).aib_manufacturer) = true
  · simp only [haib, Bool.not_true, Bool.false_eq_true, if_false]
    cases hchip :
        (if opt_str_truthy (try_match_with_normalize payload chip_index vram_map).chip_id
         then try_match_with_normalize payload chip_index vram_map
         else try_match_with_extraction payload chip_index vram_map).chip_id with
    | none =>
        simp only []
        split
        · rfl
        · rename_i heq
          repeat' split at heq
          all_goals simp at heq
    | some cid => simp only []
  · simp [haib]

/-- Witness for C3 at a concrete document, catalog and VRAM map. -/
theorem c3_cross_pipeline_variant_id_witness :
    dict_get fix_payload "hypothesis_type" = JVal.str "gpu_variant" ∧
    ingest_observations_variant_id fix_index_a fix_vmap_a fix_payload =
      ingest_variants_variant_id fix_index_a fix_vmap_a fix_payload :=
  ⟨rfl, c3_cross_pipeline_variant_id _ _ _ rfl⟩

theorem vendor_chip_ids_subset {chip_index : ChipIndex} {vs c : String}
    (h : c ∈ vendor_chip_ids chip_index vs) : c ∈ index_chip_ids chip_index := by
  unfold vendor_chip_ids at h
  cases hm : alist_get chip_index vs with
  | none => rw [hm] at h; simp at h
  | some m =>
      rw [hm] at h
      simp only [Option.getD_some, List.mem_flatten] at h
      obtain ⟨chips, hchips, hc⟩ := h
      unfold index_chip_ids
      rw [List.mem_flatten]
      refine ⟨(m.map Prod.snd).flatten, ?_, ?_⟩
      · exact List.mem_map.mpr ⟨(vs, m), alist_get_mem hm, rfl⟩
      · rw [List.mem_flatten]
        exact ⟨chips, hchips, hc⟩

/-- **C4.** For every pair of match-attempt inputs over a catalog index whose
chip ids are non-empty strings: if the normalizer-based attempt resolves a
concrete chip id, arbitration selects that attempt — even when the
extraction-based attempt independently resolves a (possibly different) chip —
and if the normalizer-based attempt resolves no chip id, the extraction-based
attempt's result, resolved or not, is used with its own diagnostics. -/
theorem c4_arbitration_priority
    (v1 m1 : Option String) (g1 : Option ℤ) (a1 : Option String)
    (v2 m2 : Option String) (g2 : Option ℤ) (a2 : Option String)
    (chip_index : ChipIndex) (vram_map : List (String × ℤ))
    (hids : "" ∉ index_chip_ids chip_index) :
    (∀ c, (attempt_match v1 m1 g1 chip_index vram_map a1).chip_id = some c →
        pick_match_attempt (attempt_match v1 m1 g1 chip_index vram_map a1)
          (attempt_match v2 m2 g2 chip_index vram_map a2) =
          attempt_match v1 m1 g1 chip_index vram_map a1) ∧
    ((attempt_match v1 m1 g1 chip_index vram_map a1).chip_id = none →
        pick_match_attempt (attempt_match v1 m1 g1 chip_index vram_map a1)
          (attempt_match v2 m2 g2 chip_index vram_map a2) =
          attempt_match v2 m2 g2 chip_index vram_map a2) := by
  constructor
  · intro c hc
    obtain ⟨vs, -, hcmem⟩ := attempt_match_chip_mem hc
    have hne : c ≠ "" := by
      intro hceq
      subst hceq
      exact hids (vendor_chip_ids_subset hcmem)
    have htruthy : opt_str_truthy (attempt_match v1 m1 g1 chip_index vram_map a1).chip_id
        = true := by
      rw [hc]
      simp [opt_str_truthy, hne]
    unfold pick_match_attempt
    rw [if_pos htruthy]
  · intro hnone
    simp [pick_match_attempt, hnone, opt_str_truthy]

/-- Witness for C4: a catalog where the two attempts resolve to different
chips (A1 via 16 GB, B1 via 8 GB); the normalizer-side attempt wins. -/
theorem c4_arbitration_priority_witness :
    ("" ∉ index_chip_ids fix_index_ab) ∧
    (attempt_match (some "NVIDIA") (some "RTX 5070 Ti") (some 16) fix_index_ab fix_vmap_ab
      none).chip_id = some "A1" ∧
    (attempt_match (some "NVIDIA") (some "RTX 5070 Ti") (some 8) fix_index_ab fix_vmap_ab
      none).chip_id = some "B1" ∧
    pick_match_attempt
      (attempt_match (some "NVIDIA") (some "RTX 5070 Ti") (some 16) fix_index_ab fix_vmap_ab none)
      (attempt_match (some "NVIDIA") (some "RTX 5070 Ti") (some 8) fix_index_ab fix_vmap_ab none) =
      attempt_match (some "NVIDIA") (some "RTX 5070 Ti") (some 16) fix_index_ab fix_vmap_ab none :=
  ⟨by decide, by decide, by decide,
   (c4_arbitration_priority (some "NVIDIA") (some "RTX 5070 Ti") (some 16) none
      (some "NVIDIA") (some "RTX 5070 Ti") (some 8) none fix_index_ab fix_vmap_ab
      (by decide)).1 "A1" (by decide)⟩

/-- **C7.** For every `gpu_variant` hypothesis record: a row is inserted only
if arbitration resolved a chip id and the resolved AIB manufacturer is a
non-empty string; and when either is absent the record is rejected with one
of the classified skips `missing_fields`, `no_chip_match` or
`ambiguous_chip_match`, leaving the table untouched — no partial insert. -/
theorem c7_insert_preconditions (chip_index : ChipIndex)
    (vram_map : List (String × ℤ)) (payload : JVal)
    (htype : dict_get payload "hypothesis_type" = JVal.str "gpu_variant") :
    (∀ table table' r,
        ingest_variant_doc chip_index vram_map payload table
          = (table', VariantOutcome.inserted r) →
        (∃ cid, (variant_arbitrated chip_index vram_map payload).chip_id = some cid) ∧
        ∃ a, variant_resolved_aib chip_index vram_map payload = some a ∧ a ≠ "") ∧
    ((variant_arbitrated chip_index vram_map payload).chip_id = none ∨
        opt_str_truthy (variant_resolved_aib chip_index vram_map payload) = false →
      ∃ o, (o = VariantOutcome.missing_fields ∨ o = VariantOutcome.no_chip_match ∨
            o = VariantOutcome.ambiguous_chip) ∧
        ∀ table, ingest_variant_doc chip_index vram_map payload table = (table, o)) := by
  set A := variant_arbitrated chip_index vram_map payload with hA
  set B := variant_resolved_aib chip_index vram_map payload with hB
  by_cases haib : opt_str_truthy B = true
  · cases hchip : A.chip_id with
    | none =>
        have hplan : variant_ingest_plan chip_index vram_map payload =
            (if (A.match_state == some "missing") = true then VariantPlan.missing_fields
             else if (A.match_state == some "ambiguous") = true then
               VariantPlan.ambiguous_chip
             else VariantPlan.no_chip_match) := by
          unfold variant_ingest_plan
          rw [htype]
          simp only [beq_self_eq_true, Bool.not_true, Bool.false_eq_true, if_false]
          rw [← hA, ← hB]
          rw [if_neg (by rw [haib]; simp)]
          rw [hchip]
        constructor
        · intro table table' r hstep
          unfold ingest_variant_doc at hstep
          split at hplan
          case _ => rw [hplan] at hstep; simp at hstep
          case _ =>
            split at hplan
            case _ => rw [hplan] at hstep; simp at hstep
            case _ => rw [hplan] at hstep; simp at hstep
        · intro _
          refine ⟨(if (A.match_state == some "missing") = true then
                     VariantOutcome.missing_fields
                   else if (A.match_state == some "ambiguous") = true then
                     VariantOutcome.ambiguous_chip
                   else VariantOutcome.no_chip_match), ?_, ?_⟩
          · split
            · exact Or.inl rfl
            · split
              · exact Or.inr (Or.inr rfl)
              · exact Or.inr (Or.inl rfl)
          · intro table
            unfold ingest_variant_doc
            rw [hplan]
            by_cases h1 : (A.match_state == some "missing") = true
            · simp [h1]
            · by_cases h2 : (A.match_state == some "ambiguous") = true
              · simp [h1, h2]
              · simp [h1, h2]
    | some cid =>
        constructor
        · intro table table' r _
          exact ⟨⟨cid, rfl⟩, opt_str_truthy_iff.mp haib⟩
        · intro hpre
          rcases hpre with hp | hp
          · simp at hp
          · rw [haib] at hp
            simp at hp
  · have hbf : opt_str_truthy B = false := by
      revert haib
      cases opt_str_truthy B <;> simp
    have hplan : variant_ingest_plan chip_index vram_map payload =
        VariantPlan.missing_fields := by
      unfold variant_ingest_plan
      rw [htype]
      simp only [beq_self_eq_true, Bool.not_true, Bool.false_eq_true, if_false]
      rw [← hA, ← hB]
      rw [if_pos (by rw [hbf]; simp)]
    constructor
    · intro table table' r hstep
      unfold ingest_variant_doc at hstep
      rw [hplan] at hstep
      simp at hstep
    · intro _
      refine ⟨VariantOutcome.missing_fields, Or.inl rfl, fun table => ?_⟩
      unfold ingest_variant_doc
      rw [hplan]

/-- Witness for C7 at a concrete document and catalog: the record inserts,
and its arbitration facts hold. -/
theorem c7_insert_preconditions_witness :
    dict_get fix_payload "hypothesis_type" = JVal.str "gpu_variant" ∧
    ∃ cid, (variant_arbitrated fix_index_a fix_vmap_a fix_payload).chip_id = some cid :=
  ⟨rfl,
   ((c7_insert_preconditions fix_index_a fix_vmap_a fix_payload rfl).1
      [] [fix_variant_row] fix_variant_row rfl).1⟩

/-- **C1.** For every hypothesis document whose ingestion run inserts a
variant row: re-running variant ingestion on the same document against the
unchanged catalog and store inserts no new row — the second run classifies
the document as a duplicate (counting `skipped_duplicate` up by one,
`variants_inserted` and `errors` unchanged), and the table holds exactly one
row with that variant id.  The same upsert-or-ignore idempotence holds for
re-ingesting an identical marketplace observation record keyed by
`observation_id`. -/
theorem c1_reingest_idempotent
    (chip_index : ChipIndex) (vram_map : List (String × ℤ)) (payload : JVal)
    (table table' : List VariantRow) (r : VariantRow) (c : VariantCounters)
    (index_store hyp_store : List (String × JVal)) (include_currency : Bool)
    (record : JVal) (variant_table : List VariantRow)
    (otable otable' : List ObservationRow) (orow : ObservationRow)
    (h : ingest_variant_doc chip_index vram_map payload table
        = (table', VariantOutcome.inserted r))
    (ho : ingest_observation_record chip_index vram_map index_store hyp_store
        include_currency record variant_table otable
        = (otable', ObservationOutcome.inserted orow)) :
    ingest_variant_doc chip_index vram_map payload table'
      = (table', VariantOutcome.duplicate) ∧
    (table'.filter (fun x => x.variant_id == r.variant_id)).length = 1 ∧
    (variant_tally (ingest_variant_doc chip_index vram_map payload table').2 c).skipped_duplicate
      = c.skipped_duplicate + 1 ∧
    (variant_tally (ingest_variant_doc chip_index vram_map payload table').2 c).variants_inserted
      = c.variants_inserted ∧
    (variant_tally (ingest_variant_doc chip_index vram_map payload table').2 c).errors
      = c.errors ∧
    ingest_observation_record chip_index vram_map index_store hyp_store
      include_currency record variant_table otable'
      = (otable', ObservationOutcome.duplicate) ∧
    (otable'.filter (fun x => x.observation_id == orow.observation_id)).length = 1 := by
  have hv : ingest_variant_doc chip_index vram_map payload table'
        = (table', VariantOutcome.duplicate) ∧
      (table'.filter (fun x => x.variant_id == r.variant_id)).length = 1 := by
    unfold ingest_variant_doc at h ⊢
    cases hp : variant_ingest_plan chip_index vram_map payload <;> rw [hp] at h
    case wrong_type => simp at h
    case missing_fields => simp at h
    case no_chip_match => simp at h
    case ambiguous_chip => simp at h
    case insert row =>
      simp only [] at h ⊢
      split at h
      · simp at h
      · rename_i hany
        simp only [Prod.mk.injEq, VariantOutcome.inserted.injEq] at h
        obtain ⟨h1, h2⟩ := h
        subst h2
        subst h1
        have hanyf : (table.any fun x => x.variant_id == row.variant_id) = false :=
          Bool.eq_false_iff.mpr hany
        constructor
        · rw [if_pos (by simp [List.any_append])]
        · exact filter_append_single_length _ _ _ hanyf (by simp)
  have hobs : ingest_observation_record chip_index vram_map index_store hyp_store
        include_currency record variant_table otable'
        = (otable', ObservationOutcome.duplicate) ∧
      (otable'.filter (fun x => x.observation_id == orow.observation_id)).length = 1 := by
    unfold ingest_observation_record validate_observation at ho ⊢
    cases hres : observation_resolution chip_index vram_map index_store hyp_store record <;>
      rw [hres] at ho
    case inl s => cases s <;> simp [observation_skip_outcome] at ho
    case inr vid =>
      simp only [] at ho ⊢
      cases hrp : observation_row_plan include_currency record vid <;> rw [hrp] at ho
      case missing_fields => simp at ho
      case invalid_price => simp at ho
      case invalid_stock_status => simp at ho
      case insert row =>
        simp only [] at ho ⊢
        split at ho
        · simp at ho
        · rename_i hany
          split at ho
          · simp at ho
          · simp only [Prod.mk.injEq, ObservationOutcome.inserted.injEq] at ho
            obtain ⟨h1, h2⟩ := ho
            subst h2
            subst h1
            have hanyf : (otable.any fun x => x.observation_id == row.observation_id) = false :=
              Bool.eq_false_iff.mpr hany
            constructor
            · rw [if_pos (by simp [List.any_append])]
            · exact filter_append_single_length _ _ _ hanyf (by simp)
  refine ⟨hv.1, hv.2, ?_, ?_, ?_, hobs.1, hobs.2⟩
  · rw [hv.1]
    rfl
  · rw [hv.1]
    rfl
  · rw [hv.1]
    rfl

/-- Witness for C1: a concrete catalog, hypothesis document, index document
and observation record; the first runs insert, the second runs classify the
duplicates and leave single rows. -/
theorem c1_reingest_idempotent_witness :
    (ingest_variant_doc fix_index_a fix_vmap_a fix_payload []
        = ([fix_variant_row], VariantOutcome.inserted fix_variant_row)) ∧
    (ingest_observation_record fix_index_a fix_vmap_a fix_index_store fix_hyp_store true
        fix_record [fix_variant_row] []
        = ([fix_obs_row], ObservationOutcome.inserted fix_obs_row)) ∧
    ingest_variant_doc fix_index_a fix_vmap_a fix_payload [fix_variant_row]
      = ([fix_variant_row], VariantOutcome.duplicate) ∧
    ingest_observation_record fix_index_a fix_vmap_a fix_index_store fix_hyp_store true
      fix_record [fix_variant_row] [fix_obs_row]
      = ([fix_obs_row], ObservationOutcome.duplicate) ∧
    ([fix_variant_row].filter
      (fun x => x.variant_id == fix_variant_row.variant_id)).length = 1 ∧
    ([fix_obs_row].filter
      (fun x => x.observation_id == fix_obs_row.observation_id)).length = 1 := by
  have h1 : ingest_variant_doc fix_index_a fix_vmap_a fix_payload []
      = ([fix_variant_row], VariantOutcome.inserted fix_variant_row) := rfl
  have h2 : ingest_observation_record fix_index_a fix_vmap_a fix_index_store fix_hyp_store
      true fix_record [fix_variant_row] []
      = ([fix_obs_row], ObservationOutcome.inserted fix_obs_row) := rfl
  have hmain := c1_reingest_idempotent fix_index_a fix_vmap_a fix_payload [] [fix_variant_row]
    fix_variant_row ⟨0, 0, 0, 0, 0, 0, 0, 0⟩ fix_index_store fix_hyp_store true fix_record
    [fix_variant_row] [] [fix_obs_row] fix_obs_row h1 h2
  exact ⟨h1, h2, hmain.1, hmain.2.2.2.2.2.1, hmain.2.1, hmain.2.2.2.2.2.2⟩

/-- **C8 (counterexample).** A record whose price is positive infinity — not
a finite number — passes field validation: it is not skipped with
`invalid_price` (the code only checks `price is None or price <= 0`), and a
row carrying the non-finite price is inserted. -/
theorem c8_counterexample :
    validate_observation true c8_record "var_x" [c8_variant_row] []
      = ([c8_obs_row], ObservationOutcome.inserted c8_obs_row) ∧
    (validate_observation true c8_record "var_x" [c8_variant_row] []).2
      ≠ ObservationOutcome.invalid_price ∧
    pf_is_finite ((coerce_float (dict_get c8_record "price_eur")).getD PyFloat.nan)
      = false := by
  have he : validate_observation true c8_record "var_x" [c8_variant_row] []
      = ([c8_obs_row], ObservationOutcome.inserted c8_obs_row) := rfl
  refine ⟨he, ?_, rfl⟩
  rw [he]
  simp

/-- **C8 (amended).** For every observation record whose identifier fields
pass and whose currency requirement is met, the record is skipped with
`invalid_price` exactly when its coerced price is missing or compares `<= 0`
under Python float comparison (positive infinity and NaN compare false
against 0 and are therefore not rejected, although they are not finite);
such a skip inserts no row. -/
theorem c8_amended (include_currency : Bool) (record : JVal) (variant_id : String)
    (variant_table : List VariantRow) (table : List ObservationRow)
    (hret : opt_str_truthy (coerce_str (dict_get record "retailer")) = true)
    (hurl : opt_str_truthy (coerce_str (dict_get record "product_url")) = true)
    (hobserved : opt_str_truthy (coerce_str (dict_get record "observed_at_utc")) = true)
    (hrun : opt_str_truthy (coerce_str (dict_get record "scrape_run_id")) = true)
    (hcur : ((coerce_str (dict_get record "currency") == none) && include_currency)
      = false) :
    ((validate_observation include_currency record variant_id variant_table table).2
        = ObservationOutcome.invalid_price ↔
      (coerce_float (dict_get record "price_eur") = none ∨
       ∃ p, coerce_float (dict_get record "price_eur") = some p ∧
         pf_le p (PyFloat.finite 0) = true)) ∧
    ((validate_observation include_currency record variant_id variant_table table).2
        = ObservationOutcome.invalid_price →
      (validate_observation include_currency record variant_id variant_table table).1
        = table) := by
  have hvp : (validate_observation include_currency record variant_id variant_table table).2
      = ObservationOutcome.invalid_price ↔
      observation_row_plan include_currency record variant_id
        = ObservationPlan.invalid_price := by
    unfold validate_observation
    cases hrp : observation_row_plan include_currency record variant_id
    case missing_fields => simp
    case invalid_price => simp
    case invalid_stock_status => simp
    case insert row =>
      simp only []
      split
      · simp
      · split <;> simp
  have htab : observation_row_plan include_currency record variant_id
      = ObservationPlan.invalid_price →
      (validate_observation include_currency record variant_id variant_table table).1
        = table := by
    intro hrp
    unfold validate_observation
    rw [hrp]
  have hplan : observation_row_plan include_currency record variant_id
      = ObservationPlan.invalid_price ↔
      (coerce_float (dict_get record "price_eur") = none ∨
       ∃ p, coerce_float (dict_get record "price_eur") = some p ∧
         pf_le p (PyFloat.finite 0) = true) := by
    unfold observation_row_plan
    simp only [hret, hurl, hobserved, hrun, hcur, Bool.not_true, Bool.false_or,
      Bool.or_false, Bool.false_eq_true, if_false]
    cases hp : coerce_float (dict_get record "price_eur")
    case none => simp
    case some p =>
      simp only []
      by_cases hle : pf_le p (PyFloat.finite 0) = true
      · rw [if_pos hle]
        simp [hle]
      · rw [if_neg hle]
        constructor
        · intro hcontra
          split at hcontra <;> simp at hcontra
        · rintro (hnone | ⟨p', hp', hle'⟩)
          · simp at hnone
          · injection hp' with h2
            subst h2
            exact absurd hle' hle
  exact ⟨hvp.trans hplan, fun hinv => htab (hvp.mp hinv)⟩

/-- Witness for the amended C8: a record with price −5 is skipped with
`invalid_price`. -/
theorem c8_amended_witness :
    (validate_observation true c8_witness_record "var_w" [] []).2
      = ObservationOutcome.invalid_price :=
  ((c8_amended true c8_witness_record "var_w" [] [] rfl rfl rfl rfl rfl).1).mpr
    (Or.inr ⟨PyFloat.finite (-5), rfl, by decide⟩)

/-- **C9 (counterexample).** Two distinct index documents both reference the
same product URL, but reconciliation reads only the file named
`sha256(url).json`: the observation is not skipped with
`ambiguous_index_entry` — it proceeds with the hash-named entry and a row is
inserted, the second document being silently ignored. -/
theorem c9_counterexample :
    ((c9_index_store.map Prod.snd).filter
        (fun d => match dict_get d "product_url" with
                  | JVal.str s => s == fix_url
                  | _ => false)).length = 2 ∧
    ingest_observation_record fix_index_a fix_vmap_a c9_index_store fix_hyp_store true
      fix_record [fix_variant_row] []
      = ([fix_obs_row], ObservationOutcome.inserted fix_obs_row) ∧
    ObservationOutcome.inserted fix_obs_row ≠ ObservationOutcome.ambiguous_index_entry := by
  refine ⟨rfl, rfl, by simp⟩

/-- The shared identity stage only skips with `missing_fields`,
`ambiguous_chip` or `no_chip_match`, never `ambiguous_index_entry`. -/
theorem observation_identity_stage_not_ambiguous (chip_index : ChipIndex)
    (vram_map : List (String × ℤ)) (p : JVal) :
    observation_identity_stage chip_index vram_map p
      ≠ Sum.inl ObservationSkip.ambiguous_index_entry := by
  unfold observation_identity_stage
  intro hcontra
  simp only [] at hcontra
  repeat' split at hcontra
  all_goals simp at hcontra

/-- The resolution stage never skips with `ambiguous_index_entry`: the index
lookup reads only the single file named by the URL hash, so the entry list
has length at most one. -/
theorem observation_resolution_not_ambiguous (chip_index : ChipIndex)
    (vram_map : List (String × ℤ)) (index_store hyp_store : List (String × JVal))
    (record : JVal) :
    observation_resolution chip_index vram_map index_store hyp_store record
      ≠ Sum.inl ObservationSkip.ambiguous_index_entry := by
  unfold observation_resolution
  intro hcontra
  simp only [] at hcontra
  cases hurl : coerce_str (dict_get record "product_url") <;> rw [hurl] at hcontra
  case none => simp at hcontra
  case some url =>
    simp only [] at hcontra
    cases hidx : alist_get index_store (sha256_hexdigest url) <;> rw [hidx] at hcontra
    case none => simp at hcontra
    case some p =>
      simp at hcontra
      repeat' split at hcontra
      all_goals first
        | exact observation_identity_stage_not_ambiguous _ _ _ hcontra
        | simp_all

/-- The validation stage never reports `ambiguous_index_entry`. -/
theorem validate_observation_not_ambiguous (include_currency : Bool) (record : JVal)
    (variant_id : String) (variant_table : List VariantRow)
    (table : List ObservationRow) :
    (validate_observation include_currency record variant_id variant_table table).2
      ≠ ObservationOutcome.ambiguous_index_entry := by
  unfold validate_observation
  cases observation_row_plan include_currency record variant_id
  case missing_fields => simp
  case invalid_price => simp
  case invalid_stock_status => simp
  case insert row =>
    simp only []
    split
    · simp
    · split <;> simp

/-- **C9 (amended).** The per-record loop never classifies any observation as
`ambiguous_index_entry`: the lookup consults exactly the one file named by
the URL hash, so at most one index entry is ever constructed and the
ambiguous branch is unreachable. -/
theorem c9_amended (chip_index : ChipIndex) (vram_map : List (String × ℤ))
    (index_store hyp_store : List (String × JVal)) (include_currency : Bool)
    (record : JVal) (variant_table : List VariantRow) (table : List ObservationRow) :
    (ingest_observation_record chip_index vram_map index_store hyp_store include_currency
        record variant_table table).2 ≠ ObservationOutcome.ambiguous_index_entry := by
  unfold ingest_observation_record
  cases hres : observation_resolution chip_index vram_map index_store hyp_store record
  case inr vid =>
    simp only []
    exact validate_observation_not_ambiguous include_currency record vid variant_table table
  case inl s =>
    simp only []
    cases s
    case ambiguous_index_entry =>
      exact absurd hres (observation_resolution_not_ambiguous _ _ _ _ _)
    all_goals simp [observation_skip_outcome]

/-- Every vendor surviving `_normalize_vendor` is `NVIDIA` or `AMD`. -/
theorem normalize_vendor_cases {v : JVal} {w : String}
    (h : normalize_vendor v = some w) : w = "NVIDIA" ∨ w = "AMD" := by
  unfold normalize_vendor at h
  split at h
  · simp at h
  · simp only [] at h
    split at h
    · exact Or.inl (by injection h with h2; exact h2.symm)
    · split at h
      · exact Or.inr (by injection h with h2; exact h2.symm)
      · simp at h

/-- **C10.** Any vendor value evaluating to `INTEL` — as the normalizer's
vendor hint or as the extraction's `chipset_manufacturer` — is normalized to
`None` (only exact case-insensitive `NVIDIA`/`AMD` survive); the resulting
match attempt is the `missing` attempt with no chip id; consequently every
chip resolved through either entry point lies under the `NVIDIA` or `AMD`
vendor of the index, never under `INTEL` — even though `normalize` itself
produces `INTEL` vendor and `ARC` model hints. -/
theorem c10_intel_never_matches :
    (∀ v : JVal, py_upper (py_strip (py_str_of v)) = "INTEL" →
      normalize_vendor v = none) ∧
    (∀ (model_raw : Option String) (vram : Option ℤ) (chip_index : ChipIndex)
        (vram_map : List (String × ℤ)) (aib : Option String),
      attempt_match none model_raw vram chip_index vram_map aib
        = ⟨none, [], some "missing", none, none, vram, none⟩) ∧
    ((normalize (JVal.obj [("product_name_raw", JVal.str "Intel Arc A770 16GB")])).vendor_hint
        = some "INTEL" ∧
     (normalize (JVal.obj
        [("product_name_raw", JVal.str "Intel Arc A770 16GB")])).model_name_hint
        = some "ARC A770") ∧
    (∀ (payload : JVal) (chip_index : ChipIndex) (vram_map : List (String × ℤ))
        (c : String),
      (try_match_with_normalize payload chip_index vram_map).chip_id = some c →
        c ∈ vendor_chip_ids chip_index "NVIDIA" ∨ c ∈ vendor_chip_ids chip_index "AMD") ∧
    (∀ (payload : JVal) (chip_index : ChipIndex) (vram_map : List (String × ℤ))
        (c : String),
      (try_match_with_extraction payload chip_index vram_map).chip_id = some c →
        c ∈ vendor_chip_ids chip_index "NVIDIA" ∨ c ∈ vendor_chip_ids chip_index "AMD") := by
  refine ⟨?_, ?_, ⟨by decide, by decide⟩, ?_, ?_⟩
  · intro v h
    unfold normalize_vendor
    split
    · rfl
    · rw [h]
      decide
  · intro model_raw vram chip_index vram_map aib
    rfl
  · intro payload chip_index vram_map c h
    unfold try_match_with_normalize at h
    simp only [] at h
    split at h
    · split at h
      · simp at h
      · obtain ⟨vs, hvs, hmem⟩ := attempt_match_chip_mem h
        rcases normalize_vendor_cases hvs with h1 | h1 <;> rw [h1] at hmem
        · exact Or.inl hmem
        · exact Or.inr hmem
    · simp at h
  · intro payload chip_index vram_map c h
    unfold try_match_with_extraction at h
    simp only [] at h
    obtain ⟨vs, hvs, hmem⟩ := attempt_match_chip_mem h
    rcases normalize_vendor_cases hvs with h1 | h1 <;> rw [h1] at hmem
    · exact Or.inl hmem
    · exact Or.inr hmem

/-- Witness for C10: `" intel "` normalizes to `None`, and the attempt with a
`None` vendor is the `missing` attempt on a concrete catalog. -/
theorem c10_intel_never_matches_witness :
    normalize_vendor (JVal.str " intel ") = none ∧
    attempt_match none (some "ARC A770") (some 16) fix_index_a fix_vmap_a none
      = ⟨none, [], some "missing", none, none, some 16, none⟩ :=
  ⟨c10_intel_never_matches.1 (JVal.str " intel ") (by decide),
   c10_intel_never_matches.2.1 (some "ARC A770") (some 16) fix_index_a fix_vmap_a none⟩

end GpuBd
